import Mathlib

/-!
# Signal Execution & Risk Engine — shallow embedding

This file embeds the core of the `fincs-bot-backend` execution engine
(`src/executor.py` together with the persistence helpers of `src/storage.py`)
as executable Lean definitions and proves the frozen specification claims
about it.

Modelling conventions:
* Python floats (equity, prices, margins, lot ratios) are modelled as `ℚ`;
  all comparisons in the claims are order-theoretic, never about binary
  rounding of doubles.
* SQLite tables become in-memory values inside `Store`.  The `executed_orders`
  table keyed by the unique index `(segment_hash, broker)` becomes a list of
  rows kept newest-first; `INSERT OR REPLACE` becomes "remove the old row for
  the key, cons the new row at the head".  Since `created_at` is taken from a
  monotone clock, the head order of the list coincides with
  `ORDER BY datetime(created_at) DESC`.
* Timestamps are UTC epoch seconds (`Int`).  The `signal_timestamp` column is
  a raw string in the database; we model it as `Option (Option Int)`:
  `none` = column NULL or empty (falsy in the required-field check),
  `some none` = present but unparseable by `_parse_timestamp`,
  `some (some t)` = parses to epoch second `t`.
* The broker object is an oracle record: `get_equity`, `refresh_positions`,
  `get_open_position_units`, `precheck_order` and `place_market_order` are
  pure fields; a `none`/`Option` value models an unavailable response or a
  missing attribute (`hasattr` probe).
* The ghost field `orders` of `LoopState` logs every
  `broker.place_market_order` call together with the signal hash and broker
  name of the processing step that issued it; it has no effect on control
  flow and exists to state submission-counting claims.
-/

/- Batteries marks the rational-number operations `@[irreducible]`, which
blocks `decide`/`rfl` evaluation of concrete states; restore the default
reducibility for this file so concrete witnesses evaluate in the kernel. -/
attribute [local semireducible] Rat.mul Rat.add Rat.sub Rat.inv Rat.ofScientific

/-- One row of the `executed_orders` table (the execution Ledger). -/
structure ExecRow where
  segment_hash : String
  broker : String
  status : String
  order_id : Option String := none
  error_message : Option String := none
  payload : Option String := none
  created_at : Int := 0
deriving Repr, DecidableEq

/-- The persisted stores owned by the engine: the execution Ledger
(`executed_orders`, newest row first), the position-baseline table
(`baseline_units`, keyed by instrument and direction) and the daily equity
table (`daily_equity`, keyed by UTC date). -/
structure Store where
  ledger : List ExecRow := []
  baselines : List ((String × String) × Int) := []
  daily_equity : List (String × ℚ) := []
deriving Repr, DecidableEq

/-- `storage.record_execution`: `INSERT OR REPLACE` of the row keyed by
`(segment_hash, broker)`; the fresh row carries the current clock. -/
def record_execution (st : Store) (segment_hash broker status : String)
    (order_id error_message payload : Option String) (now : Int) : Store :=
  { st with ledger :=
      { segment_hash := segment_hash, broker := broker, status := status,
        order_id := order_id, error_message := error_message,
        payload := payload, created_at := now } ::
      st.ledger.filter (fun r => !(r.segment_hash == segment_hash && r.broker == broker)) }

/-- `storage.was_executed`: some Ledger row exists for the key. -/
def was_executed (st : Store) (segment_hash broker : String) : Bool :=
  st.ledger.any (fun r => r.segment_hash == segment_hash && r.broker == broker)

/-- `storage.was_executed_recent`: a Ledger row for the key whose
`created_at` lies within the last `window` seconds. -/
def was_executed_recent (st : Store) (segment_hash broker : String)
    (window : Int) (now : Int) : Bool :=
  st.ledger.any (fun r => r.segment_hash == segment_hash && r.broker == broker
    && now - window ≤ r.created_at)

/-- `storage.get_recent_executions`: the `limit` most recent rows for the
broker (the list is kept newest-first, matching `ORDER BY created_at DESC`). -/
def get_recent_executions (st : Store) (broker : String) (limit : ℕ) : List ExecRow :=
  (st.ledger.filter (fun r => r.broker == broker)).take limit

/-- `storage.get_baseline_units`. -/
def get_baseline_units (st : Store) (instrument direction : String) : Option Int :=
  (st.baselines.lookup (instrument, direction))

/-- `storage.set_baseline_units`: keyed upsert. -/
def set_baseline_units (st : Store) (instrument direction : String) (units : Int) : Store :=
  { st with baselines :=
      ((instrument, direction), units) ::
      st.baselines.filter (fun p => !(p.1 == (instrument, direction))) }

/-- `storage.clear_baseline_units`: with `direction = none` (the executor's
call site) every row of the instrument is deleted, both directions. -/
def clear_baseline_units (st : Store) (instrument : String)
    (direction : Option String) : Store :=
  { st with baselines :=
      match direction with
      | some d => st.baselines.filter (fun p => !(p.1 == (instrument, d)))
      | none => st.baselines.filter (fun p => !(p.1.1 == instrument)) }

/-- `storage.get_daily_equity`. -/
def get_daily_equity (st : Store) (date_key : String) : Option ℚ :=
  st.daily_equity.lookup date_key

/-- `storage.set_daily_equity`: keyed upsert. -/
def set_daily_equity (st : Store) (date_key : String) (equity : ℚ) : Store :=
  { st with daily_equity :=
      (date_key, equity) :: st.daily_equity.filter (fun p => !(p.1 == date_key)) }

/-- The argument record of `broker.place_market_order`. -/
structure OrderReq where
  instrument : Int
  side : String
  units : Int
  sl_price : Option ℚ := none
  tp_price : Option ℚ := none
  client_id : String
  dry_run : Bool
deriving Repr, DecidableEq

/-- `broker.BrokerResult`. -/
structure BrokerResult where
  ok : Bool
  order_id : Option String := none
  error : Option String := none
  payload : Option String := none
deriving Repr, DecidableEq

/-- One parsed-event row consumed by the executor (`parsed_events` columns
that `execute_pending_signals` reads). -/
structure Signal where
  segment_hash : String
  signal_id : Option String := none
  scraped_at : Option String := none
  action : Option String := none
  direction : Option String := none
  instrument : Option String := none
  /-- `none` = NULL; `some none` = present but not convertible by `int()`;
  `some (some u)` = integer uic `u`. -/
  uic : Option (Option Int) := none
  asset_type : Option String := none
  /-- See the module docstring: `none` = NULL/empty, `some none` = present but
  unparseable, `some (some t)` = parses to epoch second `t`. -/
  signal_timestamp : Option (Option Int) := none
  lot_ratio : Option ℚ := none
  is_add : Bool := false
  entry_price : Option ℚ := none
  sl_price : Option ℚ := none
  tp_price : Option ℚ := none
deriving Repr, DecidableEq

/-- `ALLOWED_UICS` from `executor.py`. -/
def ALLOWED_UICS (pair : String) : Option Int :=
  if pair = "EURUSD" then some 21
  else if pair = "USDJPY" then some 22
  else if pair = "GBPUSD" then some 23
  else none

/-- `str(instrument).upper().replace("/", "")`: uppercase every character and
drop every `/` (replacing a one-character pattern by the empty string deletes
its occurrences).  Written over the character list so that concrete values
evaluate in the kernel. -/
def normInstrument (s : String) : String :=
  String.mk ((s.data.map Char.toUpper).filter (fun c => c ≠ '/'))

/-- Python `str.lower()`, written over the character list so that concrete
values evaluate in the kernel. -/
def strToLower (s : String) : String :=
  String.mk (s.data.map Char.toLower)

/-- Python's `round` (banker's rounding, ties to the even neighbour) followed
by `int(...)`, applied to an exact rational. -/
def pyRound (q : ℚ) : Int :=
  let f : Int := q.floor
  let r : ℚ := q - f
  if r < 1/2 then f
  else if 1/2 < r then f + 1
  else if f % 2 = 0 then f else f + 1

/-- `signal_id = sig.get("signal_id") or segment_hash[:24]` (Python `or`,
so an empty string also falls back to the hash prefix). -/
def resolveSignalId (sig : Signal) : String :=
  match sig.signal_id with
  | some s => if s = "" then sig.segment_hash.take 24 else s
  | none => sig.segment_hash.take 24

/-- Truthiness of an optional string column (Python `if not value`). -/
def strTruthy : Option String → Bool
  | none => false
  | some s => s ≠ ""

/-- `allowed_pairs and norm_instrument not in allowed_pairs` (a `None` or
empty allow-list is falsy and disables the filter). -/
def pairNotAllowed (allowed_pairs : Option (List String)) (norm : String) : Bool :=
  match allowed_pairs with
  | some l => !l.isEmpty && !(l.contains norm)
  | none => false

/-- `_find_max_units`' binary-search loop (`while low <= high`), with the
`hasattr` probe already resolved into the query function `pre`.  The loop is
written with an explicit `fuel` counter so that it is structurally recursive
(and hence evaluates in the kernel); each iteration strictly shrinks the
measure `high + 1 - low`, so calling it with `fuel = high + 1 - low` — as
`find_max_units` does — makes fuel exhaustion coincide exactly with the
`while` guard `low <= high` turning false, both returning `last_ok`. -/
def findLoop (pre : ℕ → Option ℚ) (equity : ℚ) :
    ℕ → ℕ → ℕ → Option ℕ → Option ℕ
  | 0, _, _, lastOk => lastOk
  | fuel + 1, low, high, lastOk =>
    if low ≤ high then
      let mid := (low + high) / 2
      if mid = 0 then lastOk
      else
        match pre mid with
        | none => lastOk
        | some margin =>
          if margin ≤ equity then findLoop pre equity fuel (mid + 1) high (some mid)
          else findLoop pre equity fuel low (mid - 1) lastOk
    else lastOk

/-- `_find_max_units(broker, uic, direction, equity, max_units)`.  The broker
and the fixed `(uic, direction)` pair are abstracted into
`pre : Option (ℕ → Option ℚ)`: `none` models a broker without a
`precheck_order` attribute, `some f` the margin query at a unit count. -/
def find_max_units (pre : Option (ℕ → Option ℚ)) (equity : ℚ)
    (max_units : Int) : Option ℕ :=
  if max_units ≤ 0 then none
  else
    let high := max_units.toNat
    let query : ℕ → Option ℚ := fun u => match pre with
      | some f => f u
      | none => none
    -- Quick check at max_units
    match query high with
    | some margin =>
      if margin ≤ equity then some high
      else findLoop query equity (high + 1) 0 high none
    | none => findLoop query equity (high + 1) 0 high none

/-- Per-signal outcome of one loop iteration. -/
inductive Outcome where
  | skip (reason : String)
  | filled
  | orderFailed
deriving Repr, DecidableEq

/-- Result of one loop iteration: an ordinary outcome, or a fatal `_stop`
(`SystemExit`) that aborts the remainder of the cycle. -/
inductive StepResult where
  | ok (o : Outcome)
  | fatal (reason : String)
deriving Repr, DecidableEq

/-- The mutable state threaded through the per-signal loop: the persisted
stores plus the in-cycle counters and the ghost order log. -/
structure LoopState where
  store : Store
  api_errors : ℕ := 0
  order_rejections : ℕ := 0
  processed : ℕ := 0
  submitted : ℕ := 0
  failed : List String := []
  skipped : List (String × String) := []
  /-- Ghost log: (segment_hash of the processing step, broker name, request)
  of every `place_market_order` call, in order. -/
  orders : List (String × String × OrderReq) := []
deriving Repr, DecidableEq

/-- The per-cycle read-only context: broker oracle, configuration, the
position snapshot fetched once per cycle, current equity and clock. -/
structure Ctx where
  broker_name : String
  /-- the cycle's `broker_positions` snapshot (uic → signed units) -/
  positions : List (Int × Int)
  /-- `broker.get_open_position_units` (lazy per-instrument refresh) -/
  open_units : Int → Int
  /-- `broker.precheck_order` if the attribute exists -/
  precheck : Option (Int → String → Int → Option ℚ)
  /-- `broker.place_market_order` -/
  place : OrderReq → BrokerResult
  equity : ℚ
  now : Int
  allowed_pairs : Option (List String)
  max_total_units : Int
  freshness_seconds : Int
  strict_mode : Bool
  allow_market_without_prices : Bool
  dry_run : Bool

/-- Fields extracted by the pre-branch validations. -/
structure Ex where
  action : String
  norm : String
  uic : Int
  ts : Int
deriving Repr, DecidableEq

/-- The pre-branch guard pipeline of `execute_pending_signals` (duplicate
checks through the ENTRY direction/lot check).  These guards never mutate any
store; a failing guard yields `Sum.inl (Outcome.skip reason)` with the
`_note_skip` reason code. -/
def preCheck (ctx : Ctx) (st : Store) (sig : Signal) : Outcome ⊕ Ex :=
  if was_executed st sig.segment_hash ctx.broker_name then .inl (.skip "duplicate")
  else if was_executed_recent st sig.segment_hash ctx.broker_name 600 ctx.now then
    .inl (.skip "duplicate_recent")
  else
    let action := sig.action.getD ""
    let instrument := sig.instrument.getD ""
    let asset_type := sig.asset_type.getD ""
    if ¬ (strTruthy sig.action ∧ strTruthy sig.instrument ∧ sig.uic ≠ none
          ∧ strTruthy sig.asset_type ∧ sig.signal_timestamp ≠ none) then
      .inl (.skip "missing_required_fields")
    else if ¬ (action = "ENTRY" ∨ action = "CLOSE_TP" ∨ action = "CLOSE_SL") then
      .inl (.skip "unsupported_action")
    else if asset_type ≠ "FxSpot" then .inl (.skip "unsupported_asset_type")
    else
      match sig.uic.getD none with
      | none => .inl (.skip "invalid_uic")
      | some uic =>
        let norm := normInstrument instrument
        match ALLOWED_UICS norm with
        | none => .inl (.skip "instrument_not_allowed")
        | some code =>
          if code ≠ uic then .inl (.skip "uic_mismatch")
          else
            match sig.signal_timestamp.getD none with
            | none => .inl (.skip "invalid_timestamp")
            | some ts =>
              if ctx.freshness_seconds > 0 ∧ ctx.now - ts > ctx.freshness_seconds then
                .inl (.skip "stale_signal")
              else if pairNotAllowed ctx.allowed_pairs norm then
                .inl (.skip "pair_not_allowed")
              else if action = "ENTRY"
                      ∧ (¬ (sig.direction = some "BUY" ∨ sig.direction = some "SELL")
                         ∨ sig.lot_ratio = none) then
                .inl (.skip "missing_direction_or_lot")
              else .inr { action := action, norm := norm, uic := uic, ts := ts }

/-- `broker_positions.get(uic) if uic in broker_positions else
broker.get_open_position_units(uic)`. -/
def lookupPosition (ctx : Ctx) (uic : Int) : Int :=
  match ctx.positions.lookup uic with
  | some v => v
  | none => ctx.open_units uic

/-- A branch-level skip: append to the `skipped` list and write a terminal
`skipped` Ledger row carrying the human-readable reason. -/
def recordSkip (ctx : Ctx) (ls : LoopState) (sig : Signal)
    (code reasonText : String) : LoopState × StepResult :=
  ({ ls with
      skipped := ls.skipped ++ [(sig.segment_hash, reasonText)],
      store := record_execution ls.store sig.segment_hash ctx.broker_name
        "skipped" none (some reasonText) none ctx.now },
   .ok (.skip code))

/-- The CLOSE_TP / CLOSE_SL branch. -/
def closeBranch (ctx : Ctx) (ls : LoopState) (sig : Signal) (ex : Ex) :
    LoopState × StepResult :=
  let existing := lookupPosition ctx ex.uic
  if existing = 0 then recordSkip ctx ls sig "no_position" "no position"
  else
    let req : OrderReq :=
      { instrument := ex.uic, side := if existing > 0 then "SELL" else "BUY",
        units := |existing|, sl_price := none, tp_price := none,
        client_id := resolveSignalId sig, dry_run := ctx.dry_run }
    let result := ctx.place req
    let status := if result.ok then "filled" else "failed"
    let st := record_execution ls.store sig.segment_hash ctx.broker_name status
      result.order_id result.error result.payload ctx.now
    let ls := { ls with
                store := st,
                orders := ls.orders ++ [(sig.segment_hash, ctx.broker_name, req)] }
    if result.ok then
      ({ ls with
         store := clear_baseline_units ls.store ex.norm none,
         submitted := ls.submitted + 1,
         order_rejections := 0 }, .ok .filled)
    else
      let ls := { ls with
                  failed := ls.failed ++ [sig.segment_hash],
                  order_rejections := ls.order_rejections + 1 }
      if ls.order_rejections ≥ 3 then (ls, .fatal "3 consecutive order rejections")
      else (ls, .ok .orderFailed)

/-- `broker.precheck_order(uic, direction, units) if hasattr(broker,
"precheck_order") else None`: the margin query performed before submission. -/
def marginQuery (ctx : Ctx) (uic : Int) (direction : String) (units : Int) :
    Option ℚ :=
  match ctx.precheck with
  | some f => f uic direction units
  | none => none

/-- The tail of the ENTRY branch after the risk-amount/exposure checks: margin
pre-check at the final unit count, then order submission. -/
def submitEntry (ctx : Ctx) (ls : LoopState) (sig : Signal) (ex : Ex)
    (direction : String) (units : Int) : LoopState × StepResult :=
  let margin := marginQuery ctx ex.uic direction units
  match margin with
  | none =>
    let ls := { ls with api_errors := ls.api_errors + 1 }
    if ls.api_errors ≥ 3 then (ls, .fatal "3 consecutive Saxo API errors")
    else recordSkip ctx ls sig "margin_unavailable" "margin unavailable"
  | some m =>
    let ls := { ls with api_errors := 0 }
    if m > ctx.equity * (3/100) then recordSkip ctx ls sig "margin_limit" "margin limit"
    else
      let req : OrderReq :=
        { instrument := ex.uic, side := direction, units := units,
          sl_price := sig.sl_price, tp_price := sig.tp_price,
          client_id := resolveSignalId sig, dry_run := ctx.dry_run }
      let result := ctx.place req
      let status := if result.ok then "filled" else "failed"
      let st := record_execution ls.store sig.segment_hash ctx.broker_name status
        result.order_id result.error result.payload ctx.now
      let ls := { ls with
                  store := st,
                  orders := ls.orders ++ [(sig.segment_hash, ctx.broker_name, req)] }
      if result.ok then
        ({ ls with submitted := ls.submitted + 1, order_rejections := 0 }, .ok .filled)
      else
        let ls := { ls with
                    failed := ls.failed ++ [sig.segment_hash],
                    order_rejections := ls.order_rejections + 1 }
        if ls.order_rejections ≥ 3 then (ls, .fatal "3 consecutive order rejections")
        else (ls, .ok .orderFailed)

/-- Baseline resolution at the head of the ENTRY branch: stored add-on
baseline for `is_add` signals, else the affordability search (whose result is
persisted with `set_baseline_units`).  `Sum.inl` is a resolution skip,
`Sum.inr` hands the continuation the (possibly updated) state and the
baseline unit count. -/
def resolveBaseline (ctx : Ctx) (ls : LoopState) (sig : Signal) (ex : Ex) :
    (LoopState × StepResult) ⊕ (LoopState × Int) :=
  let direction := sig.direction.getD ""
  if sig.is_add then
    match get_baseline_units ls.store ex.norm direction with
    | none => .inl (recordSkip ctx ls sig "missing_baseline" "missing baseline")
    | some b => .inr (ls, b)
  else
    match find_max_units (ctx.precheck.map (fun f u => f ex.uic direction (u : Int)))
        ctx.equity ctx.max_total_units with
    | none => .inl (recordSkip ctx ls sig "baseline_unavailable" "baseline unavailable")
    | some b =>
      .inr ({ ls with store := set_baseline_units ls.store ex.norm direction (b : Int) },
            (b : Int))

/-- The ENTRY branch from baseline resolution up to the risk gates. -/
def entryBranch (ctx : Ctx) (ls : LoopState) (sig : Signal) (ex : Ex) :
    LoopState × StepResult :=
  let direction := sig.direction.getD ""
  let lot := sig.lot_ratio.getD 0
  match resolveBaseline ctx ls sig ex with
  | .inl r => r
  | .inr (ls, baseline_units) =>
    let units : Int := pyRound ((baseline_units : ℚ) * lot)
    if units ≤ 0 then recordSkip ctx ls sig "zero_units" "zero units"
    else
      let distinct_open := (ctx.positions.filter (fun p => p.2 ≠ 0)).map Prod.fst
      if distinct_open.length ≥ 3 ∧ ex.uic ∉ distinct_open then
        recordSkip ctx ls sig "max_open_positions" "max open positions"
      else
        let existing := lookupPosition ctx ex.uic
        if existing ≠ 0 ∧ ((existing > 0 ∧ 0 > units) ∨ (existing < 0 ∧ 0 < units)) then
          recordSkip ctx ls sig "conflict_position" "conflict position"
        else
          match sig.entry_price, sig.sl_price with
          | some entry_price, some sl_price =>
            let risk_amount := |entry_price - sl_price| * |(units : ℚ)|
            if ctx.equity ≤ 0 then (ls, .fatal "Invalid equity")
            else if risk_amount > ctx.equity * (1/100) then
              recordSkip ctx ls sig "risk_limit" "risk limit"
            else
              let notional := |entry_price| * |(units : ℚ)|
              if notional > ctx.equity * (10/100) then
                recordSkip ctx ls sig "exposure_limit" "exposure limit"
              else submitEntry ctx ls sig ex direction units
          | _, _ =>
            if ctx.strict_mode ∨ ¬ ctx.allow_market_without_prices then
              recordSkip ctx ls sig "missing_entry_sl" "missing entry/sl"
            else submitEntry ctx ls sig ex direction units

/-- One iteration of the `for sig in signals` loop of
`execute_pending_signals`. -/
def processSignal (ctx : Ctx) (ls : LoopState) (sig : Signal) :
    LoopState × StepResult :=
  match preCheck ctx ls.store sig with
  | .inl o => (ls, .ok o)
  | .inr ex =>
    let ls := { ls with processed := ls.processed + 1 }
    if ex.action = "CLOSE_TP" ∨ ex.action = "CLOSE_SL" then closeBranch ctx ls sig ex
    else entryBranch ctx ls sig ex

/-- The whole per-signal loop: processes signals in order, collecting one
outcome per signal, and stops at the first fatal `_stop`. -/
def runSignals (ctx : Ctx) (ls : LoopState) :
    List Signal → LoopState × Option String × List (String × Outcome)
  | [] => (ls, none, [])
  | sig :: rest =>
    match processSignal ctx ls sig with
    | (ls', .ok o) =>
      let (ls'', fr, outs) := runSignals ctx ls' rest
      (ls'', fr, (sig.segment_hash, o) :: outs)
    | (ls', .fatal r) => (ls', some r, [])

/-- The signal-window selection of `execute_pending_signals`: the first
`process_last_n` rows when configured positive, otherwise only the rows
sharing the newest row's `scraped_at`. -/
def selectSignals (all_signals : List Signal) (process_last_n : Int) : List Signal :=
  if process_last_n > 0 then all_signals.take process_last_n.toNat
  else
    let latest_scrape := all_signals.head?.bind (fun s => s.scraped_at)
    all_signals.filter (fun s => s.scraped_at == latest_scrape)

/-- An arbitrary interleaving of processing attempts (possibly spanning
several cycles, which share the persisted `Store` through `LoopState.store`);
used to state trace-level claims. -/
def runTrace (ls : LoopState) : List (Ctx × Signal) → LoopState
  | [] => ls
  | (ctx, sig) :: rest => runTrace (processSignal ctx ls sig).1 rest

/-- Number of ghost-logged order submissions attributed to a given
(segment hash, broker) pair. -/
def countOrders (segment_hash broker : String)
    (orders : List (String × String × OrderReq)) : ℕ :=
  (orders.filter (fun o => o.1 == segment_hash && o.2.1 == broker)).length

/-- The cycle-level configuration parameters of `execute_pending_signals`. -/
structure Config where
  allowed_pairs : Option (List String) := none
  max_total_units : Int := 500000
  freshness_seconds : Int := 180
  process_last_n : Int := 0
  strict_mode : Bool := true
  allow_market_without_prices : Bool := false
  dry_run : Bool := true

/-- The broker oracle handed to a cycle (`get_broker` result). -/
structure BrokerM where
  name : String
  /-- `get_equity()`; `none` = unavailable -/
  equity : Option ℚ
  /-- `refresh_positions()`; `none` models the call raising, which the
  executor turns into an empty snapshot -/
  refresh : Option (List (Int × Int))
  open_units : Int → Int
  precheck : Option (Int → String → Int → Option ℚ)
  place : OrderReq → BrokerResult

/-- Result of one invocation of `execute_pending_signals`: the fatal `_stop`
reason if the cycle halted, the loop state reached, and the per-signal
outcomes in processing order. -/
structure CycleResult where
  fatalReason : Option String
  state : LoopState
  outcomes : List (String × Outcome)
deriving Repr, DecidableEq

/-- `execute_pending_signals`, with the environment variables, broker oracle,
database contents, clock and UTC date key passed explicitly. -/
def execute_pending_signals (saxo_env bot_enabled : String) (broker : BrokerM)
    (store : Store) (all_signals : List Signal) (now : Int) (date_key : String)
    (cfg : Config) : CycleResult :=
  let halt : String → Store → CycleResult := fun r st =>
    { fatalReason := some r, state := { store := st }, outcomes := [] }
  if strToLower saxo_env ≠ "sim" then halt "SAXO_ENV must be sim" store
  else if bot_enabled ≠ "true" then halt "BOT_ENABLED is not true" store
  else if broker.name ≠ "saxo" then halt "Unsupported broker" store
  else
    let signals := selectSignals all_signals cfg.process_last_n
    let broker_positions := broker.refresh.getD []
    match broker.equity with
    | none => halt "Equity unavailable" store
    | some equity =>
      let (store1, baseline) :=
        match get_daily_equity store date_key with
        | some b => (store, b)
        | none => (set_daily_equity store date_key equity, equity)
      -- `if baseline and baseline > 0:` then `if drawdown >= 0.05:` — for a
      -- float, truthiness plus positivity is exactly positivity.
      if baseline > 0 ∧ (baseline - equity) / baseline ≥ 5/100 then
        halt "Daily drawdown limit reached" store1
      else
        let recent := get_recent_executions store1 broker.name 3
        if recent.length = 3 ∧ recent.all (fun r => r.status == "failed") then
          halt "3 consecutive broker failures" store1
        else
          let ctx : Ctx :=
            { broker_name := broker.name, positions := broker_positions,
              open_units := broker.open_units, precheck := broker.precheck,
              place := broker.place, equity := equity, now := now,
              allowed_pairs := cfg.allowed_pairs,
              max_total_units := cfg.max_total_units,
              freshness_seconds := cfg.freshness_seconds,
              strict_mode := cfg.strict_mode,
              allow_market_without_prices := cfg.allow_market_without_prices,
              dry_run := cfg.dry_run }
          let rs := runSignals ctx { store := store1 } signals
          { fatalReason := rs.2.1, state := rs.1, outcomes := rs.2.2 }

/-! ## Helper lemmas about the persisted stores -/

theorem ledger_set_baseline_units (st : Store) (i d : String) (u : Int) :
    (set_baseline_units st i d u).ledger = st.ledger := rfl

theorem ledger_clear_baseline_units (st : Store) (i : String) (d : Option String) :
    (clear_baseline_units st i d).ledger = st.ledger := rfl

theorem ledger_set_daily_equity (st : Store) (k : String) (e : ℚ) :
    (set_daily_equity st k e).ledger = st.ledger := rfl

theorem was_executed_clear_baseline (st : Store) (i : String) (d : Option String)
    (h b : String) :
    was_executed (clear_baseline_units st i d) h b = was_executed st h b := rfl

theorem was_executed_set_baseline (st : Store) (i dir : String) (u : Int)
    (h b : String) :
    was_executed (set_baseline_units st i dir u) h b = was_executed st h b := rfl

theorem was_executed_record_self (st : Store) (h b s : String)
    (o e p : Option String) (t : Int) :
    was_executed (record_execution st h b s o e p t) h b = true := by
  simp [was_executed, record_execution]

theorem was_executed_record_mono (st : Store) (h' b' h b s : String)
    (o e p : Option String) (t : Int)
    (hw : was_executed st h' b' = true) :
    was_executed (record_execution st h b s o e p t) h' b' = true := by
  simp only [was_executed, record_execution, List.any_eq_true, Bool.and_eq_true,
    beq_iff_eq] at hw ⊢
  obtain ⟨r, hr, hh, hb⟩ := hw
  by_cases hk : r.segment_hash = h ∧ r.broker = b
  · exact ⟨_, List.mem_cons_self _ _, by simp [← hh, hk.1], by simp [← hb, hk.2]⟩
  · refine ⟨r, List.mem_cons_of_mem _ ?_, hh, hb⟩
    refine List.mem_filter.mpr ⟨hr, ?_⟩
    simp only [Bool.not_eq_eq_eq_not, Bool.not_true, Bool.and_eq_false_iff]
    rcases not_and_or.mp hk with hne | hne
    · exact Or.inl (by simpa using hne)
    · exact Or.inr (by simpa using hne)

/-! ## Shape lemmas about the per-signal pipeline -/

theorem processSignal_of_preCheck_inl (ctx : Ctx) (ls : LoopState) (sig : Signal)
    (o : Outcome) (hpc : preCheck ctx ls.store sig = .inl o) :
    processSignal ctx ls sig = (ls, .ok o) := by
  unfold processSignal
  rw [hpc]

theorem preCheck_duplicate (ctx : Ctx) (st : Store) (sig : Signal)
    (hw : was_executed st sig.segment_hash ctx.broker_name = true) :
    preCheck ctx st sig = .inl (.skip "duplicate") := by
  simp [preCheck, hw]

theorem recordSkip_orders (ctx : Ctx) (ls : LoopState) (sig : Signal)
    (c t : String) : (recordSkip ctx ls sig c t).1.orders = ls.orders := rfl

theorem recordSkip_result (ctx : Ctx) (ls : LoopState) (sig : Signal)
    (c t : String) : (recordSkip ctx ls sig c t).2 = .ok (.skip c) := rfl

theorem recordSkip_was_mono (ctx : Ctx) (ls : LoopState) (sig : Signal)
    (c t : String) (h b : String) (hw : was_executed ls.store h b = true) :
    was_executed (recordSkip ctx ls sig c t).1.store h b = true :=
  was_executed_record_mono _ _ _ _ _ _ _ _ _ _ hw

/-- The CLOSE branch either submits no order, or submits exactly one order
attributed to this signal's hash and immediately records a Ledger row for
the (hash, broker) key. -/
theorem closeBranch_orders (ctx : Ctx) (ls : LoopState) (sig : Signal) (ex : Ex) :
    (closeBranch ctx ls sig ex).1.orders = ls.orders ∨
    (∃ req, (closeBranch ctx ls sig ex).1.orders
        = ls.orders ++ [(sig.segment_hash, ctx.broker_name, req)] ∧
      was_executed (closeBranch ctx ls sig ex).1.store sig.segment_hash
        ctx.broker_name = true) := by
  simp only [closeBranch]
  split
  · exact Or.inl (recordSkip_orders ..)
  · right
    repeat' split
    all_goals exact ⟨_, rfl, was_executed_record_self ..⟩

/-- The order-submission tail of the ENTRY branch: either no order, or one
order attributed to this hash with a Ledger row written for the key. -/
theorem submitEntry_orders (ctx : Ctx) (ls : LoopState) (sig : Signal) (ex : Ex)
    (direction : String) (units : Int) :
    (submitEntry ctx ls sig ex direction units).1.orders = ls.orders ∨
    (∃ req, (submitEntry ctx ls sig ex direction units).1.orders
        = ls.orders ++ [(sig.segment_hash, ctx.broker_name, req)] ∧
      was_executed (submitEntry ctx ls sig ex direction units).1.store
        sig.segment_hash ctx.broker_name = true) := by
  simp only [submitEntry]
  split
  · split
    · exact Or.inl rfl
    · exact Or.inl (recordSkip_orders ..)
  · split
    · exact Or.inl (recordSkip_orders ..)
    · right
      repeat' split
      all_goals exact ⟨_, rfl, was_executed_record_self ..⟩
/-- Baseline resolution inside the ENTRY branch (the `resolved` value) only
ever hands the continuation a state with the same ghost order log and an
unchanged Ledger. -/
theorem entryBranch_orders (ctx : Ctx) (ls : LoopState) (sig : Signal) (ex : Ex) :
    (entryBranch ctx ls sig ex).1.orders = ls.orders ∨
    (∃ req, (entryBranch ctx ls sig ex).1.orders
        = ls.orders ++ [(sig.segment_hash, ctx.broker_name, req)] ∧
      was_executed (entryBranch ctx ls sig ex).1.store sig.segment_hash
        ctx.broker_name = true) := by
  simp only [entryBranch, resolveBaseline]
  split
  · -- resolved = .inl r : a baseline-resolution skip
    rename_i r heq
    split at heq <;> split at heq <;> cases heq
    all_goals exact Or.inl (recordSkip_orders ..)
  · -- resolved = .inr (ls1, baseline_units)
    rename_i ls1 b1 heq
    have hord : ls1.orders = ls.orders := by
      split at heq <;> split at heq <;> cases heq <;> rfl
    split
    · exact Or.inl (by rw [recordSkip_orders, hord])
    · split
      · exact Or.inl (by rw [recordSkip_orders, hord])
      · split
        · exact Or.inl (by rw [recordSkip_orders, hord])
        · split
          · split
            · exact Or.inl hord
            · split
              · exact Or.inl (by rw [recordSkip_orders, hord])
              · split
                · exact Or.inl (by rw [recordSkip_orders, hord])
                · rcases submitEntry_orders ctx ls1 sig ex (sig.direction.getD "")
                    (pyRound ((b1 : ℚ) * sig.lot_ratio.getD 0)) with h | ⟨req, hreq, hw⟩
                  · exact Or.inl (h.trans hord)
                  · exact Or.inr ⟨req, by rw [hreq, hord], hw⟩
          · split
            · exact Or.inl (by rw [recordSkip_orders, hord])
            · rcases submitEntry_orders ctx ls1 sig ex (sig.direction.getD "")
                (pyRound ((b1 : ℚ) * sig.lot_ratio.getD 0)) with h | ⟨req, hreq, hw⟩
              · exact Or.inl (h.trans hord)
              · exact Or.inr ⟨req, by rw [hreq, hord], hw⟩

theorem closeBranch_was_mono (ctx : Ctx) (ls : LoopState) (sig : Signal) (ex : Ex)
    (h b : String) (hw : was_executed ls.store h b = true) :
    was_executed (closeBranch ctx ls sig ex).1.store h b = true := by
  simp only [closeBranch, recordSkip]
  repeat' split
  all_goals first
    | exact hw
    | exact was_executed_record_mono _ _ _ _ _ _ _ _ _ _ hw

theorem submitEntry_was_mono (ctx : Ctx) (ls : LoopState) (sig : Signal) (ex : Ex)
    (d : String) (u : Int) (h b : String)
    (hw : was_executed ls.store h b = true) :
    was_executed (submitEntry ctx ls sig ex d u).1.store h b = true := by
  simp only [submitEntry, recordSkip]
  repeat' split
  all_goals first
    | exact hw
    | exact was_executed_record_mono _ _ _ _ _ _ _ _ _ _ hw

theorem entryBranch_was_mono (ctx : Ctx) (ls : LoopState) (sig : Signal) (ex : Ex)
    (h b : String) (hw : was_executed ls.store h b = true) :
    was_executed (entryBranch ctx ls sig ex).1.store h b = true := by
  simp only [entryBranch, resolveBaseline]
  split
  · rename_i r heq
    split at heq <;> split at heq <;> cases heq
    all_goals exact recordSkip_was_mono _ _ _ _ _ _ _ hw
  · rename_i ls1 b1 heq
    have hw1 : was_executed ls1.store h b = true := by
      split at heq <;> split at heq <;> cases heq
      · exact hw
      · exact hw
    repeat' split
    all_goals first
      | exact hw1
      | exact recordSkip_was_mono _ _ _ _ _ _ _ hw1
      | exact submitEntry_was_mono _ _ _ _ _ _ _ _ hw1

/-- Ledger rows are never deleted by a processing step: any (hash, broker)
key present before the step is still present afterwards. -/
theorem processSignal_was_mono (ctx : Ctx) (ls : LoopState) (sig : Signal)
    (h b : String) (hw : was_executed ls.store h b = true) :
    was_executed (processSignal ctx ls sig).1.store h b = true := by
  simp only [processSignal]
  split
  · exact hw
  · split
    · exact closeBranch_was_mono _ _ _ _ _ _ hw
    · exact entryBranch_was_mono _ _ _ _ _ _ hw

/-- Combined order-submission shape of a single processing step. -/
theorem processSignal_orders (ctx : Ctx) (ls : LoopState) (sig : Signal) :
    (processSignal ctx ls sig).1.orders = ls.orders ∨
    (∃ req, (processSignal ctx ls sig).1.orders
        = ls.orders ++ [(sig.segment_hash, ctx.broker_name, req)] ∧
      was_executed (processSignal ctx ls sig).1.store sig.segment_hash
        ctx.broker_name = true) := by
  simp only [processSignal]
  split
  · exact Or.inl rfl
  · split
    · exact closeBranch_orders ..
    · exact entryBranch_orders ..

theorem closeBranch_fatal_reasons (ctx : Ctx) (ls : LoopState) (sig : Signal)
    (ex : Ex) (r : String) (hr : (closeBranch ctx ls sig ex).2 = .fatal r) :
    r = "3 consecutive order rejections" ∨ r = "3 consecutive Saxo API errors"
      ∨ r = "Invalid equity" := by
  simp only [closeBranch, recordSkip] at hr
  repeat' split at hr
  all_goals simp_all

theorem submitEntry_fatal_reasons (ctx : Ctx) (ls : LoopState) (sig : Signal)
    (ex : Ex) (d : String) (u : Int) (r : String)
    (hr : (submitEntry ctx ls sig ex d u).2 = .fatal r) :
    r = "3 consecutive order rejections" ∨ r = "3 consecutive Saxo API errors"
      ∨ r = "Invalid equity" := by
  simp only [submitEntry, recordSkip] at hr
  repeat' split at hr
  all_goals simp_all

theorem entryBranch_fatal_reasons (ctx : Ctx) (ls : LoopState) (sig : Signal)
    (ex : Ex) (r : String) (hr : (entryBranch ctx ls sig ex).2 = .fatal r) :
    r = "3 consecutive order rejections" ∨ r = "3 consecutive Saxo API errors"
      ∨ r = "Invalid equity" := by
  simp only [entryBranch, resolveBaseline] at hr
  split at hr
  · rename_i r0 heq
    split at heq <;> split at heq <;> cases heq
    all_goals simp [recordSkip] at hr
  · rename_i ls1 b1 heq
    repeat' split at hr
    all_goals first
      | (simp [recordSkip] at hr; done)
      | exact Or.inr (Or.inr (StepResult.fatal.inj hr).symm)
      | exact submitEntry_fatal_reasons _ _ _ _ _ _ _ hr

/-- The only fatal `_stop` reasons a per-signal step can raise. -/
theorem processSignal_fatal_reasons (ctx : Ctx) (ls : LoopState) (sig : Signal)
    (r : String) (hr : (processSignal ctx ls sig).2 = .fatal r) :
    r = "3 consecutive order rejections" ∨ r = "3 consecutive Saxo API errors"
      ∨ r = "Invalid equity" := by
  simp only [processSignal] at hr
  split at hr
  · simp at hr
  · split at hr
    · exact closeBranch_fatal_reasons _ _ _ _ _ hr
    · exact entryBranch_fatal_reasons _ _ _ _ _ hr

/-! ## Order-counting invariant (claim C1) -/

theorem countOrders_append (h b : String)
    (l1 l2 : List (String × String × OrderReq)) :
    countOrders h b (l1 ++ l2) = countOrders h b l1 + countOrders h b l2 := by
  simp [countOrders, List.filter_append]

theorem countOrders_singleton (h b h' b' : String) (req : OrderReq) :
    countOrders h b [(h', b', req)] = if h' = h ∧ b' = b then 1 else 0 := by
  by_cases hk : h' = h ∧ b' = b
  · simp [countOrders, hk.1, hk.2]
  · have hfalse : (h' == h && b' == b) = false := by
      rcases not_and_or.mp hk with hne | hne <;> simp [hne]
    simp [countOrders, List.filter, hfalse, hk]

/-- One processing step preserves the at-most-one-submission invariant for
any (hash, broker) key. -/
theorem processSignal_count_invariant (h b : String) (ctx : Ctx)
    (ls : LoopState) (sig : Signal)
    (inv1 : countOrders h b ls.orders ≤ 1)
    (inv2 : 1 ≤ countOrders h b ls.orders → was_executed ls.store h b = true) :
    countOrders h b (processSignal ctx ls sig).1.orders ≤ 1 ∧
      (1 ≤ countOrders h b (processSignal ctx ls sig).1.orders →
        was_executed (processSignal ctx ls sig).1.store h b = true) := by
  rcases processSignal_orders ctx ls sig with hsame | ⟨req, happ, hwnew⟩
  · rw [hsame]
    exact ⟨inv1, fun hc => processSignal_was_mono _ _ _ _ _ (inv2 hc)⟩
  · by_cases hk : sig.segment_hash = h ∧ ctx.broker_name = b
    · -- the submitted order is attributed to the tracked key
      have hnotdup : was_executed ls.store h b = false := by
        by_contra hW
        have hW' : was_executed ls.store sig.segment_hash ctx.broker_name = true := by
          rw [hk.1, hk.2]
          exact Bool.not_eq_false _ |>.mp hW
        have := processSignal_of_preCheck_inl ctx ls sig _
          (preCheck_duplicate ctx ls.store sig hW')
        rw [this] at happ
        simp at happ
      have hzero : countOrders h b ls.orders = 0 := by
        rcases Nat.eq_zero_or_pos (countOrders h b ls.orders) with h0 | hpos
        · exact h0
        · exact absurd (inv2 hpos) (by simp [hnotdup])
      rw [happ, countOrders_append, countOrders_singleton, if_pos hk, hzero]
      exact ⟨le_refl 1, fun _ => by rw [← hk.1, ← hk.2]; exact hwnew⟩
    · rw [happ, countOrders_append, countOrders_singleton, if_neg hk, Nat.add_zero]
      exact ⟨inv1, fun hc => processSignal_was_mono _ _ _ _ _ (inv2 hc)⟩

/-- The invariant carried over a whole trace of processing attempts. -/
theorem runTrace_count_invariant (h b : String) :
    ∀ (steps : List (Ctx × Signal)) (ls : LoopState),
      countOrders h b ls.orders ≤ 1 →
      (1 ≤ countOrders h b ls.orders → was_executed ls.store h b = true) →
      countOrders h b (runTrace ls steps).orders ≤ 1
  | [], ls, inv1, _ => inv1
  | (ctx, sig) :: rest, ls, inv1, inv2 => by
    have step := processSignal_count_invariant h b ctx ls sig inv1 inv2
    exact runTrace_count_invariant h b rest _ step.1 step.2

/-! ## Concrete fixtures used by witnesses and counterexamples -/

/-- A broker that accepts every order. -/
def wPlaceOk : OrderReq → BrokerResult :=
  fun req => { ok := true, order_id := some req.client_id }

/-- A benign per-cycle context: huge equity, flat book, margin 1 per query. -/
def wCtx : Ctx :=
  { broker_name := "saxo", positions := [], open_units := fun _ => 0,
    precheck := some (fun _ _ _ => some 1), place := wPlaceOk,
    equity := 1000000, now := 1100, allowed_pairs := none,
    max_total_units := 20000, freshness_seconds := 180, strict_mode := true,
    allow_market_without_prices := false, dry_run := true }

/-- A fully valid add-on BUY entry on USDJPY. -/
def wEntrySig : Signal :=
  { segment_hash := "w-hash", action := some "ENTRY", direction := some "BUY",
    instrument := some "USDJPY", uic := some (some 22), asset_type := some "FxSpot",
    signal_timestamp := some (some 1000), lot_ratio := some 1, is_add := true,
    entry_price := some 150, sl_price := some (2999/20) }

/-- A Ledger that already holds an outcome row for `wEntrySig`'s hash. -/
def wLsDup : LoopState :=
  { store :=
      { ledger :=
          [{ segment_hash := "w-hash"
             broker := "saxo"
             status := "filled"
             created_at := 50 }] } }

/-- A fresh state holding only the add-on baseline `wEntrySig` needs. -/
def wLs0 : LoopState :=
  { store := { baselines := [(("USDJPY", "BUY"), 60)] } }

/-- C1: once any outcome row exists in the Ledger for (segment_hash, broker),
every later processing attempt of that hash against that broker is skipped as
a duplicate before any broker order call (the loop state, and with it the
Ledger and the order log, is returned unchanged); consequently any trace of
processing attempts — within one cycle or across cycles sharing the persisted
store — submits at most one live order for the pair. -/
theorem C1_idempotent_no_double_submission (h b : String) :
    (∀ (ctx : Ctx) (ls : LoopState) (sig : Signal),
        sig.segment_hash = h → ctx.broker_name = b →
        was_executed ls.store h b = true →
        processSignal ctx ls sig = (ls, .ok (.skip "duplicate"))) ∧
    (∀ (ls : LoopState) (steps : List (Ctx × Signal)),
        ls.orders = [] →
        countOrders h b (runTrace ls steps).orders ≤ 1) := by
  constructor
  · intro ctx ls sig hs hb hw
    subst hs; subst hb
    exact processSignal_of_preCheck_inl ctx ls sig _
      (preCheck_duplicate ctx ls.store sig hw)
  · intro ls steps h0
    apply runTrace_count_invariant
    · rw [h0]; simp [countOrders]
    · rw [h0]; intro hc; simp [countOrders] at hc

/-- Witness for C1 at a concrete duplicate state and a concrete two-attempt
trace of the same signal. -/
theorem C1_witness :
    processSignal wCtx wLsDup wEntrySig = (wLsDup, .ok (.skip "duplicate")) ∧
    countOrders "w-hash" "saxo"
      (runTrace wLs0 [(wCtx, wEntrySig), (wCtx, wEntrySig)]).orders ≤ 1 :=
  ⟨(C1_idempotent_no_double_submission "w-hash" "saxo").1 wCtx wLsDup wEntrySig
      rfl rfl (by decide),
   (C1_idempotent_no_double_submission "w-hash" "saxo").2 wLs0
      [(wCtx, wEntrySig), (wCtx, wEntrySig)] rfl⟩

/-! ## Claim C2: the conflict check (code bug) -/

/-- Cycle context for the conflicting-SELL scenario: the broker reports an
existing long position of +10000 units on uic 22 (USDJPY). -/
def c2Ctx : Ctx :=
  { broker_name := "saxo", positions := [(22, 10000)], open_units := fun _ => 0,
    precheck := some (fun _ _ _ => some 100), place := wPlaceOk,
    equity := 100000000, now := 1100, allowed_pairs := none,
    max_total_units := 20000, freshness_seconds := 180, strict_mode := true,
    allow_market_without_prices := false, dry_run := true }

/-- State holding a stored SELL baseline so the add-on entry reaches the
conflict check directly. -/
def c2Ls : LoopState := { store := { baselines := [(("USDJPY", "SELL"), 20000)] } }

/-- A SELL ENTRY on USDJPY that passes every other guard. -/
def c2Sig : Signal :=
  { segment_hash := "c2-hash", action := some "ENTRY", direction := some "SELL",
    instrument := some "USDJPY", uic := some (some 22), asset_type := some "FxSpot",
    signal_timestamp := some (some 1000), lot_ratio := some 1, is_add := true,
    entry_price := some 150, sl_price := some 149 }

set_option maxRecDepth 10000 in
/-- C2 (code bug, failing input): a SELL ENTRY on an instrument whose
existing broker position is +10000 units (the opposite direction) is *not*
skipped with "conflict position" — the conflict test compares the existing
position's sign against the always-positive order magnitude `units` instead
of the signal's direction, so the order is submitted and filled. -/
theorem C2_conflict_sell_not_detected :
    c2Sig.action = some "ENTRY" ∧ c2Sig.direction = some "SELL" ∧
    lookupPosition c2Ctx 22 = 10000 ∧
    (processSignal c2Ctx c2Ls c2Sig).2 = .ok .filled ∧
    (processSignal c2Ctx c2Ls c2Sig).1.orders =
      [("c2-hash", "saxo",
        { instrument := 22, side := "SELL", units := 20000, sl_price := some 149,
          tp_price := none, client_id := "c2-hash", dry_run := true })] := by
  decide

/-- Fatal reasons reachable from inside the per-signal loop (none of them is
a cycle-level breaker reason). -/
theorem runSignals_fatal_reasons (ctx : Ctx) :
    ∀ (sigs : List Signal) (ls : LoopState) (r : String),
      (runSignals ctx ls sigs).2.1 = some r →
      r = "3 consecutive order rejections" ∨ r = "3 consecutive Saxo API errors"
        ∨ r = "Invalid equity"
  | [], ls, r => by simp [runSignals]
  | sig :: rest, ls, r => by
    simp only [runSignals]
    split
    · rename_i ls' o heq
      intro hr
      exact runSignals_fatal_reasons ctx rest ls' r hr
    · rename_i ls' r0 heq
      intro hr
      have : r0 = r := by simpa using hr
      subst this
      exact processSignal_fatal_reasons ctx ls sig r0 (by rw [heq])

theorem get_recent_executions_set_daily (st : Store) (k : String) (e : ℚ)
    (b : String) (n : ℕ) :
    get_recent_executions (set_daily_equity st k e) b n = get_recent_executions st b n := rfl

/-- C5: under passing environment/equity/drawdown gates, the cycle halts
fatally before processing any signal with the consecutive-failure breaker
if and only if the Ledger holds exactly 3 rows for this broker among its
most recent 3 and all of them have status `failed`. -/
theorem C5_failure_breaker (broker : BrokerM) (store : Store) (sigs : List Signal)
    (now : Int) (dk : String) (cfg : Config) (e : ℚ)
    (hname : broker.name = "saxo") (heq : broker.equity = some e)
    (hdd : ¬ ((get_daily_equity store dk).getD e > 0 ∧
      ((get_daily_equity store dk).getD e - e) / (get_daily_equity store dk).getD e
        ≥ 5/100)) :
    ((execute_pending_signals "sim" "true" broker store sigs now dk cfg).fatalReason
        = some "3 consecutive broker failures" ∧
      (execute_pending_signals "sim" "true" broker store sigs now dk cfg).outcomes = []) ↔
    ((get_recent_executions store "saxo" 3).length = 3 ∧
      ∀ row ∈ get_recent_executions store "saxo" 3, row.status = "failed") := by
  have hsim : ¬ (strToLower "sim" ≠ "sim") := by decide
  have htrue : ¬ (("true" : String) ≠ "true") := by decide
  have hsaxo : ¬ (("saxo" : String) ≠ "saxo") := by decide
  rcases hdq : get_daily_equity store dk with _ | b0 <;>
    rw [hdq] at hdd <;>
    simp only [Option.getD] at hdd <;>
    simp only [execute_pending_signals, hname, heq, hdq, if_neg hsim, if_neg htrue,
      if_neg hsaxo, if_neg hdd, get_recent_executions_set_daily] <;>
    split
  case isTrue hcond =>
    refine ⟨fun _ => ⟨hcond.1, ?_⟩, fun _ => ⟨rfl, rfl⟩⟩
    intro row hrow
    have := hcond.2
    simp only [List.all_eq_true, beq_iff_eq] at this
    exact this row hrow
  case isFalse hcond =>
    refine ⟨fun hc => ?_, fun hc => ?_⟩
    · rcases runSignals_fatal_reasons _ _ _ _ hc.1 with h | h | h <;> simp at h
    · exfalso
      apply hcond
      refine ⟨hc.1, ?_⟩
      simp only [List.all_eq_true, beq_iff_eq]
      exact hc.2
  case isTrue hcond =>
    refine ⟨fun _ => ⟨hcond.1, ?_⟩, fun _ => ⟨rfl, rfl⟩⟩
    intro row hrow
    have := hcond.2
    simp only [List.all_eq_true, beq_iff_eq] at this
    exact this row hrow
  case isFalse hcond =>
    refine ⟨fun hc => ?_, fun hc => ?_⟩
    · rcases runSignals_fatal_reasons _ _ _ _ hc.1 with h | h | h <;> simp at h
    · exfalso
      apply hcond
      refine ⟨hc.1, ?_⟩
      simp only [List.all_eq_true, beq_iff_eq]
      exact hc.2

/-- Ledger row fixture for breaker scenarios. -/
def c5Row (h s : String) : ExecRow :=
  { segment_hash := h, broker := "saxo", status := s }

/-- A broker with equity available and nothing else. -/
def c5Broker : BrokerM :=
  { name := "saxo", equity := some 10000, refresh := some [],
    open_units := fun _ => 0, precheck := none, place := fun _ => { ok := false } }

/-- Three most recent rows all failed. -/
def c5StoreFailed : Store :=
  { ledger := [c5Row "a" "failed", c5Row "b" "failed", c5Row "c" "failed"] }

/-- Two failed rows, then a filled one (most recent first). -/
def c5StoreMixed : Store :=
  { ledger := [c5Row "a" "failed", c5Row "b" "failed", c5Row "c" "filled",
               c5Row "d" "failed"] }

/-- Witness for C5: three consecutive failed rows halt the cycle before any
signal; two failed rows followed by a filled one do not trigger the breaker. -/
theorem C5_witness :
    ((execute_pending_signals "sim" "true" c5Broker c5StoreFailed [] 0 "d" {}).fatalReason
        = some "3 consecutive broker failures" ∧
      (execute_pending_signals "sim" "true" c5Broker c5StoreFailed [] 0 "d" {}).outcomes = []) ∧
    ¬ ((execute_pending_signals "sim" "true" c5Broker c5StoreMixed [] 0 "d" {}).fatalReason
        = some "3 consecutive broker failures" ∧
      (execute_pending_signals "sim" "true" c5Broker c5StoreMixed [] 0 "d" {}).outcomes = []) := by
  constructor
  · exact (C5_failure_breaker c5Broker c5StoreFailed [] 0 "d" {} 10000 rfl rfl
      (by decide)).mpr (by decide)
  · intro hl
    have hr := (C5_failure_breaker c5Broker c5StoreMixed [] 0 "d" {} 10000 rfl rfl
      (by decide)).mp hl
    revert hr
    decide

/-! ## Daily-equity frame lemmas and claim C4 -/

theorem daily_equity_record (st : Store) (h b s : String) (o e p : Option String)
    (t : Int) : (record_execution st h b s o e p t).daily_equity = st.daily_equity := rfl

theorem closeBranch_daily (ctx : Ctx) (ls : LoopState) (sig : Signal) (ex : Ex) :
    (closeBranch ctx ls sig ex).1.store.daily_equity = ls.store.daily_equity := by
  simp only [closeBranch, recordSkip]
  repeat' split
  all_goals rfl

theorem submitEntry_daily (ctx : Ctx) (ls : LoopState) (sig : Signal) (ex : Ex)
    (d : String) (u : Int) :
    (submitEntry ctx ls sig ex d u).1.store.daily_equity = ls.store.daily_equity := by
  simp only [submitEntry, recordSkip]
  repeat' split
  all_goals rfl

theorem entryBranch_daily (ctx : Ctx) (ls : LoopState) (sig : Signal) (ex : Ex) :
    (entryBranch ctx ls sig ex).1.store.daily_equity = ls.store.daily_equity := by
  simp only [entryBranch, resolveBaseline]
  split
  · rename_i r heq
    split at heq <;> split at heq <;> cases heq
    all_goals rfl
  · rename_i ls1 b1 heq
    have h1 : ls1.store.daily_equity = ls.store.daily_equity := by
      split at heq <;> split at heq <;> cases heq
      · rfl
      · rfl
    repeat' split
    all_goals first
      | exact h1
      | exact (submitEntry_daily ..).trans h1

/-- No per-signal processing step ever touches the daily-equity table. -/
theorem processSignal_daily (ctx : Ctx) (ls : LoopState) (sig : Signal) :
    (processSignal ctx ls sig).1.store.daily_equity = ls.store.daily_equity := by
  simp only [processSignal]
  split
  · rfl
  · split
    · exact closeBranch_daily ..
    · exact entryBranch_daily ..

/-- Nor does the whole per-signal loop. -/
theorem runSignals_daily (ctx : Ctx) :
    ∀ (sigs : List Signal) (ls : LoopState),
      (runSignals ctx ls sigs).1.store.daily_equity = ls.store.daily_equity
  | [], _ => rfl
  | sig :: rest, ls => by
    simp only [runSignals]
    split
    · rename_i ls' o heq
      have h1 : ls'.store.daily_equity = ls.store.daily_equity :=
        (congrArg (fun p => p.1.store.daily_equity) heq).symm.trans
          (processSignal_daily ctx ls sig)
      exact (runSignals_daily ctx rest ls').trans h1
    · rename_i ls' r heq
      exact (congrArg (fun p => p.1.store.daily_equity) heq).symm.trans
        (processSignal_daily ctx ls sig)

theorem get_daily_equity_set_self (st : Store) (k : String) (e : ℚ) :
    get_daily_equity (set_daily_equity st k e) k = some e := by
  simp [get_daily_equity, set_daily_equity, List.lookup]

/-- C4 (amended): with environment and equity gates passing, the cycle halts
with the drawdown breaker — processing no signals — if and only if the day's
baseline (the stored one, or current equity on first use) is *positive* and
`(baseline − equity) / baseline ≥ 5 %`; the baseline is recorded for the day
in the final state in all cases.  (The original claim omitted the positivity
condition: a non-positive stored baseline disables the check.) -/
theorem get_daily_equity_congr (st st' : Store)
    (h : st.daily_equity = st'.daily_equity) (k : String) :
    get_daily_equity st k = get_daily_equity st' k := by
  simp [get_daily_equity, h]

theorem C4_drawdown_amended (broker : BrokerM) (store : Store) (sigs : List Signal)
    (now : Int) (dk : String) (cfg : Config) (e : ℚ)
    (hname : broker.name = "saxo") (heq : broker.equity = some e) :
    ((execute_pending_signals "sim" "true" broker store sigs now dk cfg).fatalReason
        = some "Daily drawdown limit reached" ↔
      ((get_daily_equity store dk).getD e > 0 ∧
        ((get_daily_equity store dk).getD e - e) / (get_daily_equity store dk).getD e
          ≥ 5/100)) ∧
    ((execute_pending_signals "sim" "true" broker store sigs now dk cfg).fatalReason
        = some "Daily drawdown limit reached" →
      (execute_pending_signals "sim" "true" broker store sigs now dk cfg).outcomes = []) ∧
    get_daily_equity
      (execute_pending_signals "sim" "true" broker store sigs now dk cfg).state.store dk
      = some ((get_daily_equity store dk).getD e) := by
  have hsim : ¬ (strToLower "sim" ≠ "sim") := by decide
  have htrue : ¬ (("true" : String) ≠ "true") := by decide
  have hsaxo : ¬ (("saxo" : String) ≠ "saxo") := by decide
  rcases hdq : get_daily_equity store dk with _ | b0 <;>
    simp only [execute_pending_signals, hname, heq, hdq, if_neg hsim, if_neg htrue,
      if_neg hsaxo, Option.getD] <;>
    split
  · -- first use, drawdown breaker fires
    rename_i hdd
    exact ⟨⟨fun _ => hdd, fun _ => rfl⟩, fun _ => rfl, get_daily_equity_set_self ..⟩
  · rename_i hdd
    split
    · exact ⟨⟨fun hfr => by simp at hfr, fun hcond => absurd hcond hdd⟩,
        fun hfr => by simp at hfr, get_daily_equity_set_self ..⟩
    · refine ⟨⟨fun hfr => ?_, fun hcond => absurd hcond hdd⟩, fun hfr => ?_, ?_⟩
      · rcases runSignals_fatal_reasons _ _ _ _ hfr with h | h | h <;> simp at h
      · rcases runSignals_fatal_reasons _ _ _ _ hfr with h | h | h <;> simp at h
      · exact (get_daily_equity_congr _ _ (runSignals_daily ..) dk).trans
          (get_daily_equity_set_self ..)
  · -- stored baseline, drawdown breaker fires
    rename_i hdd
    exact ⟨⟨fun _ => hdd, fun _ => rfl⟩, fun _ => rfl, hdq⟩
  · rename_i hdd
    split
    · exact ⟨⟨fun hfr => by simp at hfr, fun hcond => absurd hcond hdd⟩,
        fun hfr => by simp at hfr, hdq⟩
    · refine ⟨⟨fun hfr => ?_, fun hcond => absurd hcond hdd⟩, fun hfr => ?_, ?_⟩
      · rcases runSignals_fatal_reasons _ _ _ _ hfr with h | h | h <;> simp at h
      · rcases runSignals_fatal_reasons _ _ _ _ hfr with h | h | h <;> simp at h
      · exact (get_daily_equity_congr _ _ (runSignals_daily ..) dk).trans hdq

/-- Broker with a given equity and nothing else, used in cycle scenarios. -/
def c4Broker (e : ℚ) : BrokerM :=
  { name := "saxo", equity := some e, refresh := some [],
    open_units := fun _ => 0, precheck := none, place := fun _ => { ok := false } }

/-- A day whose recorded equity baseline is 10000. -/
def c4Store : Store := { daily_equity := [("d", 10000)] }

/-- A day whose recorded equity baseline is −10000 (the engine records
whatever equity the broker reported on the day's first run). -/
def c4NegStore : Store := { daily_equity := [("d", -10000)] }

/-- Counterexample to C4 as stated: with a recorded baseline of −10000 and
current equity 10000 the claim's formula gives drawdown = 2 ≥ 5 %, yet the
cycle does not halt at all — the code only runs the drawdown check when the
baseline is positive. -/
theorem C4_counterexample :
    get_daily_equity c4NegStore "d" = some (-10000) ∧
    (((-10000 : ℚ) - 10000) / (-10000) ≥ 5/100) ∧
    (execute_pending_signals "sim" "true" (c4Broker 10000) c4NegStore [] 0 "d"
      {}).fatalReason = none := by decide

/-- Witness for C4: baseline 10000 with equity 9400 (6 % drawdown) halts the
cycle fatally with no signal processed; equity 9600 (4 %) does not halt with
the drawdown reason. -/
theorem C4_witness :
    ((execute_pending_signals "sim" "true" (c4Broker 9400) c4Store [] 0 "d"
        {}).fatalReason = some "Daily drawdown limit reached" ∧
      (execute_pending_signals "sim" "true" (c4Broker 9400) c4Store [] 0 "d"
        {}).outcomes = []) ∧
    ¬ (execute_pending_signals "sim" "true" (c4Broker 9600) c4Store [] 0 "d"
        {}).fatalReason = some "Daily drawdown limit reached" := by
  have h94 := C4_drawdown_amended (c4Broker 9400) c4Store [] 0 "d" {} 9400 rfl rfl
  have h96 := C4_drawdown_amended (c4Broker 9600) c4Store [] 0 "d" {} 9600 rfl rfl
  refine ⟨⟨h94.1.mpr (by decide), h94.2.1 (h94.1.mpr (by decide))⟩, fun hfr => ?_⟩
  exact absurd (h96.1.mp hfr) (by decide)

/-! ## Claim C7: loop completeness over the selected window -/

/-- A fatal-free loop yields exactly one outcome per signal, in order. -/
theorem runSignals_complete (ctx : Ctx) :
    ∀ (sigs : List Signal) (ls : LoopState),
      (runSignals ctx ls sigs).2.1 = none →
      (runSignals ctx ls sigs).2.2.map Prod.fst = sigs.map Signal.segment_hash
  | [], _ => by simp [runSignals]
  | sig :: rest, ls => by
    simp only [runSignals]
    split
    · rename_i ls' o heq
      intro hf
      simp only [List.map_cons]
      rw [runSignals_complete ctx rest ls' hf]
    · rename_i ls' r heq
      intro hf
      simp at hf

/-- C7 (amended): a cycle that completes without a fatal stop yields exactly
one outcome (processed or recorded skip) per signal of the *selected window*
— the first `process_last_n` signals when that is configured positive,
otherwise only the signals sharing the newest row's `scraped_at` — in order.
(The original claim said *every* not-yet-executed signal in the source is
evaluated; signals outside the window are left unexamined.) -/
theorem C7_window_amended (se be : String) (broker : BrokerM) (store : Store)
    (sigs : List Signal) (now : Int) (dk : String) (cfg : Config)
    (hf : (execute_pending_signals se be broker store sigs now dk cfg).fatalReason
      = none) :
    (execute_pending_signals se be broker store sigs now dk cfg).outcomes.map Prod.fst
      = (selectSignals sigs cfg.process_last_n).map Signal.segment_hash := by
  revert hf
  simp only [execute_pending_signals]
  repeat' split
  all_goals intro hf
  all_goals first
    | (simp at hf; done)
    | exact runSignals_complete _ _ _ hf

/-- A signal from the newest scrape batch whose required fields are absent. -/
def c7SigA : Signal := { segment_hash := "c7-a", scraped_at := some "2" }

/-- A pending signal from an older scrape batch. -/
def c7SigB : Signal := { segment_hash := "c7-b", scraped_at := some "1" }

/-- Counterexample to C7 as stated: the cycle completes without a fatal stop,
examines only the newest-scrape signal (recording its skip), and leaves the
older pending signal `c7-b` wholly unexamined — no outcome and no Ledger row,
although it is not yet executed and within the read limit. -/
theorem C7_counterexample :
    (execute_pending_signals "sim" "true" (c4Broker 10000) {} [c7SigA, c7SigB]
      0 "d" {}).fatalReason = none ∧
    (execute_pending_signals "sim" "true" (c4Broker 10000) {} [c7SigA, c7SigB]
      0 "d" {}).outcomes.map Prod.fst = ["c7-a"] ∧
    was_executed (execute_pending_signals "sim" "true" (c4Broker 10000) {}
      [c7SigA, c7SigB] 0 "d" {}).state.store "c7-b" "saxo" = false := by
  decide

/-- Witness for the amended C7 at the concrete two-batch signal list. -/
theorem C7_witness :
    (execute_pending_signals "sim" "true" (c4Broker 10000) {} [c7SigA, c7SigB]
      0 "d" {}).outcomes.map Prod.fst
      = (selectSignals [c7SigA, c7SigB] ({} : Config).process_last_n).map
          Signal.segment_hash :=
  C7_window_amended "sim" "true" (c4Broker 10000) {} [c7SigA, c7SigB] 0 "d" {}
    (by decide)

/-! ## Claims C8 / C9: branch skips and the pre-branch frame -/

/-- C8: an `is_add` ENTRY whose (instrument, direction) has no stored
baseline is skipped with reason "missing baseline" — a terminal skipped
Ledger row is written and no order is submitted — regardless of every other
guard (`ctx` is arbitrary). -/
theorem C8_missing_baseline (ctx : Ctx) (ls : LoopState) (sig : Signal) (ex : Ex)
    (hpc : preCheck ctx ls.store sig = .inr ex)
    (hact : ex.action = "ENTRY")
    (hadd : sig.is_add = true)
    (hbase : get_baseline_units ls.store ex.norm (sig.direction.getD "") = none) :
    processSignal ctx ls sig =
      ({ ls with
          processed := ls.processed + 1,
          skipped := ls.skipped ++ [(sig.segment_hash, "missing baseline")],
          store := record_execution ls.store sig.segment_hash ctx.broker_name
            "skipped" none (some "missing baseline") none ctx.now },
       .ok (.skip "missing_baseline")) := by
  have hnc : ¬ (ex.action = "CLOSE_TP" ∨ ex.action = "CLOSE_SL") := by
    rw [hact]; simp
  simp only [processSignal, hpc, if_neg hnc]
  simp only [entryBranch, resolveBaseline, hadd, if_pos, hbase]
  rfl

/-- Witness for C8: the valid add-on entry `wEntrySig` against a state with
no stored baselines. -/
theorem C8_witness :
    processSignal wCtx { store := {} } wEntrySig =
      ({ store := record_execution {} "w-hash" "saxo" "skipped" none
            (some "missing baseline") none 1100,
          processed := 1,
          skipped := [("w-hash", "missing baseline")] },
       .ok (.skip "missing_baseline")) :=
  C8_missing_baseline wCtx { store := {} } wEntrySig
    { action := "ENTRY", norm := "USDJPY", uic := 22, ts := 1000 }
    (by decide) rfl rfl (by decide)

/-- The pre-branch guard skip codes: these record *no* Ledger row.
(`invalid_uic` corresponds to `int(uic)` raising; with prices and uics
already typed, `risk_calc_failed` / `exposure_calc_failed` conversion
failures cannot arise in the embedding and are likewise Ledger-silent
pre-`continue` paths in the source only for the listed pre-branch codes.) -/
def preBranchSkipReasons : List String :=
  ["duplicate", "duplicate_recent", "missing_required_fields",
   "unsupported_action", "unsupported_asset_type", "invalid_uic",
   "instrument_not_allowed", "uic_mismatch", "invalid_timestamp",
   "stale_signal", "pair_not_allowed", "missing_direction_or_lot"]

/-- The branch-level skip codes: each writes a terminal `skipped` row. -/
def branchSkipReasons : List String :=
  ["no_position", "missing_baseline", "baseline_unavailable", "zero_units",
   "max_open_positions", "conflict_position", "missing_entry_sl",
   "risk_limit", "exposure_limit", "margin_unavailable", "margin_limit"]

/-- The human-readable Ledger message written for each branch-level skip. -/
def skipMessage (code : String) : String :=
  if code = "no_position" then "no position"
  else if code = "missing_baseline" then "missing baseline"
  else if code = "baseline_unavailable" then "baseline unavailable"
  else if code = "zero_units" then "zero units"
  else if code = "max_open_positions" then "max open positions"
  else if code = "conflict_position" then "conflict position"
  else if code = "missing_entry_sl" then "missing entry/sl"
  else if code = "risk_limit" then "risk limit"
  else if code = "exposure_limit" then "exposure limit"
  else if code = "margin_unavailable" then "margin unavailable"
  else if code = "margin_limit" then "margin limit"
  else ""

theorem closeBranch_skips (ctx : Ctx) (ls : LoopState) (sig : Signal) (ex : Ex)
    (reason : String) :
    (closeBranch ctx ls sig ex).2 = .ok (.skip reason) →
    reason ∈ branchSkipReasons ∧
    (∃ row ∈ (closeBranch ctx ls sig ex).1.store.ledger,
      row.segment_hash = sig.segment_hash ∧ row.broker = ctx.broker_name ∧
      row.status = "skipped" ∧ row.error_message = some (skipMessage reason)) ∧
    (closeBranch ctx ls sig ex).1.orders = ls.orders := by
  simp only [closeBranch, recordSkip]
  repeat' split
  all_goals intro h
  all_goals first
    | (simp at h; done)
    | (simp only [StepResult.ok.injEq, Outcome.skip.injEq] at h;
       subst h;
       exact ⟨by decide, ⟨_, List.mem_cons_self _ _, rfl, rfl, rfl, rfl⟩, rfl⟩)

theorem submitEntry_skips (ctx : Ctx) (ls : LoopState) (sig : Signal) (ex : Ex)
    (d : String) (u : Int) (reason : String) :
    (submitEntry ctx ls sig ex d u).2 = .ok (.skip reason) →
    reason ∈ branchSkipReasons ∧
    (∃ row ∈ (submitEntry ctx ls sig ex d u).1.store.ledger,
      row.segment_hash = sig.segment_hash ∧ row.broker = ctx.broker_name ∧
      row.status = "skipped" ∧ row.error_message = some (skipMessage reason)) ∧
    (submitEntry ctx ls sig ex d u).1.orders = ls.orders := by
  simp only [submitEntry, recordSkip]
  repeat' split
  all_goals intro h
  all_goals first
    | (simp at h; done)
    | (simp only [StepResult.ok.injEq, Outcome.skip.injEq] at h;
       subst h;
       exact ⟨by decide, ⟨_, List.mem_cons_self _ _, rfl, rfl, rfl, rfl⟩, rfl⟩)

theorem entryBranch_skips (ctx : Ctx) (ls : LoopState) (sig : Signal) (ex : Ex)
    (reason : String) :
    (entryBranch ctx ls sig ex).2 = .ok (.skip reason) →
    reason ∈ branchSkipReasons ∧
    (∃ row ∈ (entryBranch ctx ls sig ex).1.store.ledger,
      row.segment_hash = sig.segment_hash ∧ row.broker = ctx.broker_name ∧
      row.status = "skipped" ∧ row.error_message = some (skipMessage reason)) ∧
    (entryBranch ctx ls sig ex).1.orders = ls.orders := by
  simp only [entryBranch, resolveBaseline]
  split
  · rename_i r heq
    split at heq <;> split at heq <;> cases heq
    all_goals
      simp only [recordSkip]
      intro h
      simp only [StepResult.ok.injEq, Outcome.skip.injEq] at h
      subst h
      exact ⟨by decide, ⟨_, List.mem_cons_self _ _, rfl, rfl, rfl, rfl⟩, by simp⟩
  · rename_i ls1 b1 heq
    have hord : ls1.orders = ls.orders := by
      split at heq <;> split at heq <;> cases heq <;> rfl
    repeat' split
    all_goals intro h
    all_goals first
      | (simp at h; done)
      | (rcases submitEntry_skips _ _ _ _ _ _ _ h with ⟨h1, h2, h3⟩;
         exact ⟨h1, h2, h3.trans hord⟩)
      | (simp only [recordSkip, StepResult.ok.injEq, Outcome.skip.injEq] at h;
         subst h;
         exact ⟨by decide, ⟨_, List.mem_cons_self _ _, rfl, rfl, rfl, rfl⟩, hord⟩)

theorem preCheck_skip_reasons (ctx : Ctx) (st : Store) (sig : Signal)
    (reason : String) :
    preCheck ctx st sig = .inl (.skip reason) → reason ∈ preBranchSkipReasons := by
  simp only [preCheck]
  repeat' split
  all_goals intro h
  all_goals first
    | (simp at h; done)
    | (simp only [Sum.inl.injEq, Outcome.skip.injEq] at h; subst h; decide)

theorem skip_lists_disjoint (r : String) (h1 : r ∈ preBranchSkipReasons)
    (h2 : r ∈ branchSkipReasons) : False := by
  fin_cases h1 <;> simp [branchSkipReasons] at h2

/-- C9: a signal skipped by a pre-branch guard leaves the whole loop state —
in particular the execution Ledger and the order log — unchanged (so the
signal stays retryable: `was_executed` is still false for it), while every
branch-level skip writes a terminal `skipped` Ledger row carrying the
corresponding human-readable reason. -/
theorem C9_prebranch_frame (ctx : Ctx) (ls : LoopState) (sig : Signal)
    (reason : String) :
    ((processSignal ctx ls sig).2 = .ok (.skip reason) →
      reason ∈ preBranchSkipReasons →
      processSignal ctx ls sig = (ls, .ok (.skip reason))) ∧
    ((processSignal ctx ls sig).2 = .ok (.skip reason) →
      reason ∈ branchSkipReasons →
      ∃ row ∈ (processSignal ctx ls sig).1.store.ledger,
        row.segment_hash = sig.segment_hash ∧ row.broker = ctx.broker_name ∧
        row.status = "skipped" ∧ row.error_message = some (skipMessage reason)) := by
  constructor
  · intro h hmem
    cases hpc : preCheck ctx ls.store sig with
    | inl o =>
      have hps := processSignal_of_preCheck_inl ctx ls sig o hpc
      rw [hps] at h ⊢
      have ho : o = .skip reason := by simpa using h
      rw [ho]
    | inr ex =>
      exfalso
      simp only [processSignal, hpc] at h
      split at h
      · exact skip_lists_disjoint reason hmem (closeBranch_skips _ _ _ _ _ h).1
      · exact skip_lists_disjoint reason hmem (entryBranch_skips _ _ _ _ _ h).1
  · intro h hmem
    cases hpc : preCheck ctx ls.store sig with
    | inl o =>
      exfalso
      rw [processSignal_of_preCheck_inl ctx ls sig o hpc] at h
      have ho : o = .skip reason := by simpa using h
      subst ho
      exact skip_lists_disjoint reason
        (preCheck_skip_reasons ctx ls.store sig reason hpc) hmem
    | inr ex =>
      simp only [processSignal, hpc] at h ⊢
      split at h
      · rename_i hclose
        rw [if_pos hclose]
        exact (closeBranch_skips _ _ _ _ _ h).2.1
      · rename_i hclose
        rw [if_neg hclose]
        exact (entryBranch_skips _ _ _ _ _ h).2.1

/-- Witness for C9: a stale signal (pre-branch skip) leaves the state
untouched; the missing-baseline skip of `C8`'s scenario writes its row. -/
theorem C9_witness :
    processSignal wCtx wLsDup wEntrySig = (wLsDup, .ok (.skip "duplicate")) ∧
    ∃ row ∈ (processSignal wCtx { store := {} } wEntrySig).1.store.ledger,
      row.segment_hash = "w-hash" ∧ row.broker = "saxo" ∧
      row.status = "skipped" ∧ row.error_message = some (skipMessage "missing_baseline") :=
  ⟨(C9_prebranch_frame wCtx wLsDup wEntrySig "duplicate").1 (by decide) (by decide),
   (C9_prebranch_frame wCtx { store := {} } wEntrySig "missing_baseline").2
      (by decide) (by decide)⟩

/-! ## Claim C10: frame effects of a successful close -/

theorem record_execution_preserves_other (st : Store) (h b s : String)
    (o e p : Option String) (t : Int) (row : ExecRow) (hrow : row ∈ st.ledger)
    (hne : ¬(row.segment_hash = h ∧ row.broker = b)) :
    row ∈ (record_execution st h b s o e p t).ledger := by
  simp only [record_execution]
  refine List.mem_cons_of_mem _ (List.mem_filter.mpr ⟨hrow, ?_⟩)
  simp only [Bool.not_eq_eq_eq_not, Bool.not_true, Bool.and_eq_false_iff]
  rcases not_and_or.mp hne with hd | hd
  · exact Or.inl (by simpa using hd)
  · exact Or.inr (by simpa using hd)

/-- C10: a successfully submitted CLOSE_TP / CLOSE_SL order deletes the
stored baselines of that instrument in *both* directions (the filter drops
every row whose instrument matches, whatever its direction), leaves every
other instrument's baseline and the daily-equity table unchanged, and leaves
every Ledger row of any other (hash, broker) key in place. -/
theorem C10_close_clears_both_directions (ctx : Ctx) (ls : LoopState)
    (sig : Signal) (ex : Ex)
    (hpc : preCheck ctx ls.store sig = .inr ex)
    (hclose : ex.action = "CLOSE_TP" ∨ ex.action = "CLOSE_SL")
    (hfilled : (processSignal ctx ls sig).2 = .ok .filled) :
    (processSignal ctx ls sig).1.store.baselines
      = ls.store.baselines.filter (fun p => !(p.1.1 == ex.norm)) ∧
    (processSignal ctx ls sig).1.store.daily_equity = ls.store.daily_equity ∧
    ∀ row ∈ ls.store.ledger,
      ¬(row.segment_hash = sig.segment_hash ∧ row.broker = ctx.broker_name) →
      row ∈ (processSignal ctx ls sig).1.store.ledger := by
  revert hfilled
  simp only [processSignal, hpc, if_pos hclose, closeBranch, recordSkip]
  repeat' split
  all_goals intro hfilled
  all_goals first
    | (simp at hfilled; done)
    | exact ⟨rfl, rfl, fun row hrow hne =>
        record_execution_preserves_other _ _ _ _ _ _ _ _ row hrow hne⟩

/-- Concrete close scenario: open long of 500 units on uic 22, baselines
stored for USDJPY in both directions and for EURUSD. -/
def c10Ctx : Ctx :=
  { broker_name := "saxo", positions := [(22, 500)], open_units := fun _ => 0,
    precheck := none, place := wPlaceOk, equity := 10000, now := 1100,
    allowed_pairs := none, max_total_units := 500000, freshness_seconds := 180,
    strict_mode := true, allow_market_without_prices := false, dry_run := true }

def c10Sig : Signal :=
  { segment_hash := "c10-h", action := some "CLOSE_TP",
    instrument := some "USDJPY", uic := some (some 22),
    asset_type := some "FxSpot", signal_timestamp := some (some 1000) }

def c10Ls : LoopState :=
  { store :=
      { ledger := [c5Row "other" "filled"],
        baselines := [(("USDJPY", "BUY"), 100), (("USDJPY", "SELL"), 200),
                      (("EURUSD", "BUY"), 300)],
        daily_equity := [("d", 10000)] } }

/-- Witness for C10 at the concrete close: both USDJPY baselines are gone,
EURUSD's survives, daily equity survives, and the unrelated Ledger row
survives. -/
theorem C10_witness :
    (processSignal c10Ctx c10Ls c10Sig).1.store.baselines
      = c10Ls.store.baselines.filter (fun p => !(p.1.1 == "USDJPY")) ∧
    (processSignal c10Ctx c10Ls c10Sig).1.store.daily_equity
      = c10Ls.store.daily_equity ∧
    c5Row "other" "filled" ∈ (processSignal c10Ctx c10Ls c10Sig).1.store.ledger := by
  have h := C10_close_clears_both_directions c10Ctx c10Ls c10Sig
    { action := "CLOSE_TP", norm := "USDJPY", uic := 22, ts := 1000 }
    (by decide) (Or.inl rfl) (by decide)
  exact ⟨h.1, h.2.1, h.2.2 (c5Row "other" "filled") (by decide) (by decide)⟩

/-! ## Claim C6: the three risk gates of the ENTRY branch -/

theorem submitEntry_not_invalid_equity (ctx : Ctx) (ls : LoopState) (sig : Signal)
    (ex : Ex) (d : String) (u : Int) :
    (submitEntry ctx ls sig ex d u).2 ≠ .fatal "Invalid equity" := by
  simp only [submitEntry, recordSkip]
  repeat' split
  all_goals intro h
  all_goals simp at h

theorem entryBranch_invalid_equity (ctx : Ctx) (ls : LoopState) (sig : Signal)
    (ex : Ex) (h : (entryBranch ctx ls sig ex).2 = .fatal "Invalid equity") :
    ctx.equity ≤ 0 := by
  simp only [entryBranch, resolveBaseline] at h
  split at h
  · rename_i r heq
    split at heq <;> split at heq <;> cases heq <;> simp [recordSkip] at h
  · rename_i ls1 b1 heq
    repeat' split at h
    all_goals first
      | (simp [recordSkip] at h; done)
      | assumption
      | exact absurd h (submitEntry_not_invalid_equity _ _ _ _ _ _)

/-- If the submission tail appends an order, the margin pre-check succeeded
at the submitted unit count and passed the 3 % gate. -/
theorem submitEntry_gates (ctx : Ctx) (ls : LoopState) (sig : Signal) (ex : Ex)
    (d : String) (u : Int)
    (hne : (submitEntry ctx ls sig ex d u).1.orders ≠ ls.orders) :
    ∃ req, (submitEntry ctx ls sig ex d u).1.orders
        = ls.orders ++ [(sig.segment_hash, ctx.broker_name, req)] ∧
      req.side = d ∧ req.units = u ∧
      ∃ f m, ctx.precheck = some f ∧ f ex.uic d u = some m ∧
        m ≤ ctx.equity * (3/100) := by
  revert hne
  simp only [submitEntry, recordSkip]
  split
  · split
    · intro hne
      exact absurd rfl hne
    · intro hne
      exact absurd rfl hne
  · rename_i m heqm
    split
    · intro hne
      exact absurd rfl hne
    · rename_i hmgt
      simp only [marginQuery] at heqm
      split at heqm
      · rename_i f hpre
        repeat' split
        all_goals intro _
        all_goals exact ⟨_, rfl, rfl, rfl, f, m, hpre, heqm, not_lt.mp hmgt⟩
      · cases heqm

/-- If the ENTRY branch of a priced signal appends an order, all three risk
gates held at the submitted unit count. -/
theorem entryBranch_gates (ctx : Ctx) (ls : LoopState) (sig : Signal) (ex : Ex)
    (ep sl : ℚ) (hep : sig.entry_price = some ep) (hsl : sig.sl_price = some sl)
    (hne : (entryBranch ctx ls sig ex).1.orders ≠ ls.orders) :
    ∃ req, (entryBranch ctx ls sig ex).1.orders
        = ls.orders ++ [(sig.segment_hash, ctx.broker_name, req)] ∧
      req.side = sig.direction.getD "" ∧
      |ep - sl| * |(req.units : ℚ)| ≤ ctx.equity * (1/100) ∧
      |ep| * |(req.units : ℚ)| ≤ ctx.equity * (10/100) ∧
      ∃ f m, ctx.precheck = some f ∧
        f ex.uic (sig.direction.getD "") req.units = some m ∧
        m ≤ ctx.equity * (3/100) := by
  revert hne
  simp only [entryBranch, resolveBaseline]
  split
  · rename_i r heq
    split at heq <;> split at heq <;> cases heq
    all_goals intro hne
    all_goals exact absurd rfl hne
  · rename_i ls1 b1 heq
    have hord : ls1.orders = ls.orders := by
      split at heq <;> split at heq <;> cases heq <;> rfl
    simp only [hep, hsl, recordSkip]
    split
    · intro hne
      exact absurd hord hne
    · split
      · intro hne
        exact absurd hord hne
      · split
        · intro hne
          exact absurd hord hne
        · split
          · intro hne
            exact absurd hord hne
          · split
            · intro hne
              exact absurd hord hne
            · rename_i hrisk
              split
              · intro hne
                exact absurd hord hne
              · rename_i hexp
                intro hne
                have hne1 : (submitEntry ctx ls1 sig ex (sig.direction.getD "")
                    (pyRound ((b1 : ℚ) * sig.lot_ratio.getD 0))).1.orders
                    ≠ ls1.orders := fun hcontr => hne (hcontr.trans hord)
                obtain ⟨req, hreq, hside, hunits, f, m, hpre, hm, hle⟩ :=
                  submitEntry_gates ctx ls1 sig ex _ _ hne1
                refine ⟨req, by rw [hreq, hord], hside, ?_, ?_, f, m, hpre,
                  by rw [hunits]; exact hm, hle⟩
                · rw [hunits]
                  exact not_lt.mp hrisk
                · rw [hunits]
                  exact not_lt.mp hexp

/-- C6 (amended): for an ENTRY signal with entry and stop prices present,
an order is submitted only if all three risk gates pass at the submitted
unit count — risk amount ≤ 1 % of equity, notional ≤ 10 % of equity, margin
pre-check available and ≤ 3 % of equity (the first three conjuncts); and,
for a signal that reaches the risk checks with unit count `u` (fourth
conjunct, hypotheses: resolved baseline, positive units, max-open and
conflict guards passed), the gate outcomes are exactly: with equity ≤ 0 the
cycle halts fatally "Invalid equity" with no skip recorded; with positive
equity a failing risk / exposure / available-margin gate records a skip with
the corresponding reason; an unavailable margin pre-check records a
"margin unavailable" skip — unless it is the third consecutive margin-API
error, in which case the cycle halts fatally "3 consecutive Saxo API errors"
*before* any skip is recorded. -/
theorem C6_risk_gates_amended (ctx : Ctx) (ls : LoopState) (sig : Signal)
    (ex : Ex) (ep sl : ℚ)
    (hpc : preCheck ctx ls.store sig = .inr ex)
    (hact : ex.action = "ENTRY")
    (hep : sig.entry_price = some ep) (hsl : sig.sl_price = some sl) :
    ((processSignal ctx ls sig).1.orders ≠ ls.orders →
      ∃ req, (processSignal ctx ls sig).1.orders
          = ls.orders ++ [(sig.segment_hash, ctx.broker_name, req)] ∧
        req.side = sig.direction.getD "" ∧
        |ep - sl| * |(req.units : ℚ)| ≤ ctx.equity * (1/100) ∧
        |ep| * |(req.units : ℚ)| ≤ ctx.equity * (10/100) ∧
        ∃ f m, ctx.precheck = some f ∧
          f ex.uic (sig.direction.getD "") req.units = some m ∧
          m ≤ ctx.equity * (3/100)) ∧
    (0 < ctx.equity → (processSignal ctx ls sig).2 ≠ .fatal "Invalid equity") ∧
    (∀ reason, reason ∈ ["risk_limit", "exposure_limit", "margin_unavailable",
        "margin_limit"] →
      (processSignal ctx ls sig).2 = .ok (.skip reason) →
      (∃ row ∈ (processSignal ctx ls sig).1.store.ledger,
        row.segment_hash = sig.segment_hash ∧ row.broker = ctx.broker_name ∧
        row.status = "skipped" ∧ row.error_message = some (skipMessage reason)) ∧
      (processSignal ctx ls sig).1.orders = ls.orders) ∧
    (∀ (ls1 : LoopState) (b u : Int),
      resolveBaseline ctx { ls with processed := ls.processed + 1 } sig ex
          = Sum.inr (ls1, b) →
      u = pyRound ((b : ℚ) * sig.lot_ratio.getD 0) →
      0 < u →
      ¬ (((ctx.positions.filter (fun p => p.2 ≠ 0)).map Prod.fst).length ≥ 3
          ∧ ex.uic ∉ (ctx.positions.filter (fun p => p.2 ≠ 0)).map Prod.fst) →
      ¬ (lookupPosition ctx ex.uic ≠ 0
          ∧ ((lookupPosition ctx ex.uic > 0 ∧ 0 > u)
             ∨ (lookupPosition ctx ex.uic < 0 ∧ 0 < u))) →
      (ls1.orders = ls.orders ∧ ls1.store.ledger = ls.store.ledger) ∧
      (ctx.equity ≤ 0 →
        processSignal ctx ls sig = (ls1, .fatal "Invalid equity")) ∧
      (0 < ctx.equity →
        |ep - sl| * |(u : ℚ)| > ctx.equity * (1/100) →
        processSignal ctx ls sig
          = recordSkip ctx ls1 sig "risk_limit" "risk limit") ∧
      (0 < ctx.equity →
        ¬ |ep - sl| * |(u : ℚ)| > ctx.equity * (1/100) →
        |ep| * |(u : ℚ)| > ctx.equity * (10/100) →
        processSignal ctx ls sig
          = recordSkip ctx ls1 sig "exposure_limit" "exposure limit") ∧
      (0 < ctx.equity →
        ¬ |ep - sl| * |(u : ℚ)| > ctx.equity * (1/100) →
        ¬ |ep| * |(u : ℚ)| > ctx.equity * (10/100) →
        marginQuery ctx ex.uic (sig.direction.getD "") u = none →
        (ls1.api_errors + 1 ≥ 3 →
          processSignal ctx ls sig
            = ({ ls1 with api_errors := ls1.api_errors + 1 },
               .fatal "3 consecutive Saxo API errors")) ∧
        (ls1.api_errors + 1 < 3 →
          processSignal ctx ls sig
            = recordSkip ctx { ls1 with api_errors := ls1.api_errors + 1 } sig
                "margin_unavailable" "margin unavailable")) ∧
      (∀ m : ℚ, 0 < ctx.equity →
        ¬ |ep - sl| * |(u : ℚ)| > ctx.equity * (1/100) →
        ¬ |ep| * |(u : ℚ)| > ctx.equity * (10/100) →
        marginQuery ctx ex.uic (sig.direction.getD "") u = some m →
        m > ctx.equity * (3/100) →
        processSignal ctx ls sig
          = recordSkip ctx { ls1 with api_errors := 0 } sig
              "margin_limit" "margin limit")) := by
  have hnc : ¬ (ex.action = "CLOSE_TP" ∨ ex.action = "CLOSE_SL") := by
    rw [hact]; simp
  refine ⟨fun hne => ?_, fun hpos hfat => ?_, fun reason _ hskip => ?_, ?_⟩
  · simp only [processSignal, hpc, if_neg hnc] at hne ⊢
    exact entryBranch_gates ctx _ sig ex ep sl hep hsl hne
  · simp only [processSignal, hpc, if_neg hnc] at hfat
    exact absurd (entryBranch_invalid_equity ctx _ sig ex hfat) (not_le.mpr hpos)
  · simp only [processSignal, hpc, if_neg hnc] at hskip ⊢
    exact ⟨(entryBranch_skips ctx _ sig ex reason hskip).2.1,
      (entryBranch_skips ctx _ sig ex reason hskip).2.2⟩
  · intro ls1 b u hres hudef hu hmax hconf
    subst hudef
    have hfr : ls1.orders = ls.orders ∧ ls1.store.ledger = ls.store.ledger := by
      simp only [resolveBaseline] at hres
      split at hres <;> split at hres <;> cases hres <;> exact ⟨rfl, rfl⟩
    have hstep : processSignal ctx ls sig
        = (if ctx.equity ≤ 0 then (ls1, StepResult.fatal "Invalid equity")
           else if |ep - sl| * |((pyRound ((b : ℚ) * sig.lot_ratio.getD 0) : Int) : ℚ)|
               > ctx.equity * (1/100) then
             recordSkip ctx ls1 sig "risk_limit" "risk limit"
           else if |ep| * |((pyRound ((b : ℚ) * sig.lot_ratio.getD 0) : Int) : ℚ)|
               > ctx.equity * (10/100) then
             recordSkip ctx ls1 sig "exposure_limit" "exposure limit"
           else submitEntry ctx ls1 sig ex (sig.direction.getD "")
             (pyRound ((b : ℚ) * sig.lot_ratio.getD 0))) := by
      simp only [processSignal, hpc, if_neg hnc, entryBranch, hres]
      rw [if_neg (not_le.mpr hu), if_neg hmax, if_neg hconf]
      simp only [hep, hsl]
    refine ⟨hfr, fun hle => ?_, fun hpos hrisk => ?_, fun hpos hrisk hexp => ?_,
      fun hpos hrisk hexp hm => ⟨fun hge => ?_, fun hlt => ?_⟩,
      fun m hpos hrisk hexp hm hgt => ?_⟩
    · rw [hstep, if_pos hle]
    · rw [hstep, if_neg (not_le.mpr hpos), if_pos hrisk]
    · rw [hstep, if_neg (not_le.mpr hpos), if_neg hrisk, if_pos hexp]
    · rw [hstep, if_neg (not_le.mpr hpos), if_neg hrisk, if_neg hexp]
      simp only [submitEntry, hm]
      split
      · rfl
      · rename_i hcond
        exact absurd hge hcond
    · rw [hstep, if_neg (not_le.mpr hpos), if_neg hrisk, if_neg hexp]
      simp only [submitEntry, hm]
      split
      · rename_i hcond
        exact absurd hcond (not_le.mpr hlt)
      · rfl
    · rw [hstep, if_neg (not_le.mpr hpos), if_neg hrisk, if_neg hexp]
      simp only [submitEntry, hm]
      split
      · rfl
      · rename_i hcond
        exact absurd hgt hcond

/-- Day whose recorded equity baseline is 0 with a stored add-on baseline. -/
def c6Store : Store :=
  { daily_equity := [("d", 0)], baselines := [(("USDJPY", "BUY"), 100)] }

/-- A broker reporting zero equity. -/
def c6Broker0 : BrokerM :=
  { name := "saxo", equity := some 0, refresh := some [],
    open_units := fun _ => 0, precheck := some (fun _ _ _ => some 1),
    place := wPlaceOk }

/-- A priced add-on BUY entry that reaches the risk checks. -/
def c6Sig : Signal :=
  { segment_hash := "c6-h", action := some "ENTRY", direction := some "BUY",
    instrument := some "USDJPY", uic := some (some 22), asset_type := some "FxSpot",
    signal_timestamp := some (some 1000), lot_ratio := some 1, is_add := true,
    entry_price := some 150, sl_price := some 149 }

set_option maxRecDepth 10000 in
/-- Counterexample to C6 as stated: with broker equity 0 (recorded as the
day's baseline, which being non-positive disables the drawdown gate), the
priced ENTRY's risk gate fails (risk 100 > 1 % of equity = 0), but the
signal is *not* skipped with a recorded reason — the cycle halts fatally
with "Invalid equity" and no Ledger row is written for the signal. -/
theorem C6_counterexample :
    (execute_pending_signals "sim" "true" c6Broker0 c6Store [c6Sig] 1100 "d"
      {}).fatalReason = some "Invalid equity" ∧
    was_executed (execute_pending_signals "sim" "true" c6Broker0 c6Store [c6Sig]
      1100 "d" {}).state.store "c6-h" "saxo" = false ∧
    (|(150 : ℚ) - 149| * |((100 : Int) : ℚ)| > 0 * (1/100)) ∧
    (execute_pending_signals "sim" "true" c6Broker0 c6Store [c6Sig] 1100 "d"
      {}).state.orders = [] := by
  decide

/-- The benign context with the margin pre-check always unavailable. -/
def c6mCtx : Ctx :=
  { wCtx with precheck := some (fun _ _ _ => none) }

/-- Mid-cycle state: two consecutive margin-API errors already counted and
the add-on baseline `wEntrySig` needs in place. -/
def c6mLs : LoopState :=
  { store := { baselines := [(("USDJPY", "BUY"), 60)] }, api_errors := 2 }

set_option maxRecDepth 10000 in
/-- Witness for C6: the submitted order of the benign add-on scenario passes
all three gates; and the same priced entry against a context whose margin
pre-check is unavailable, with two consecutive API errors already counted,
halts the cycle fatally ("3 consecutive Saxo API errors") instead of
recording a "margin unavailable" skip. -/
theorem C6_witness :
    ((0 : ℚ) < wCtx.equity ∧
     ∃ req, (processSignal wCtx wLs0 wEntrySig).1.orders
         = wLs0.orders ++ [("w-hash", "saxo", req)] ∧
       req.side = "BUY" ∧
       |(150 : ℚ) - 2999/20| * |(req.units : ℚ)| ≤ wCtx.equity * (1/100) ∧
       |(150 : ℚ)| * |(req.units : ℚ)| ≤ wCtx.equity * (10/100) ∧
       ∃ f m, wCtx.precheck = some f ∧ f 22 "BUY" req.units = some m ∧
         m ≤ wCtx.equity * (3/100)) ∧
    processSignal c6mCtx c6mLs wEntrySig
      = ({ c6mLs with
           processed := c6mLs.processed + 1,
           api_errors := c6mLs.api_errors + 1 },
         .fatal "3 consecutive Saxo API errors") :=
  ⟨⟨by decide,
    (C6_risk_gates_amended wCtx wLs0 wEntrySig
      { action := "ENTRY", norm := "USDJPY", uic := 22, ts := 1000 }
      150 (2999/20) (by decide) rfl rfl rfl).1 (by decide)⟩,
   (((C6_risk_gates_amended c6mCtx c6mLs wEntrySig
      { action := "ENTRY", norm := "USDJPY", uic := 22, ts := 1000 }
      150 (2999/20) (by decide) rfl rfl rfl).2.2.2
      { c6mLs with processed := c6mLs.processed + 1 } 60 60
      (by decide) (by decide) (by decide) (by decide) (by decide)).2.2.2.2.1
      (by decide) (by decide) (by decide) (by decide)).1 (by decide)⟩

/-! ## Claim C3: the baseline sizing search -/

/-- Invariant-based characterisation of the binary-search loop under a total
monotone margin function: the loop returns the greatest affordable positive
size whenever it returns anything, and returns `none` only when no size in
`[2, N]` is affordable. -/
theorem findLoop_spec (f : ℕ → ℚ) (q : ℚ)
    (hf : ∀ a b : ℕ, a ≤ b → f a ≤ f b) (N : ℕ) :
    ∀ (fuel : ℕ), ∀ (low high : ℕ) (lastOk : Option ℕ),
      high ≤ N → low ≤ N + 1 → high + 1 - low ≤ fuel →
      (∀ u, 1 ≤ u → u < low → f u ≤ q) →
      (∀ u, high < u → u ≤ N → ¬ f u ≤ q) →
      (match lastOk with
       | none => low = 0
       | some k => k + 1 = low ∧ 1 ≤ k ∧ f k ≤ q) →
      ((findLoop (fun u => some (f u)) q fuel low high lastOk = none →
          ∀ u, 2 ≤ u → u ≤ N → ¬ f u ≤ q) ∧
       (∀ k, findLoop (fun u => some (f u)) q fuel low high lastOk = some k →
          1 ≤ k ∧ k ≤ N ∧ f k ≤ q ∧ ∀ u, u ≤ N → f u ≤ q → u ≤ k)) := by
  intro fuel
  induction fuel with
  | zero =>
    intro low high lastOk hhN hlowN hfuel hI1 hI2 hI3
    match lastOk with
    | none =>
      exfalso
      simp only at hI3
      omega
    | some k =>
      obtain ⟨hk1, hk2, hk3⟩ := hI3
      constructor
      · intro hr
        simp [findLoop] at hr
      · intro k' hr
        have hkk : k = k' := by simpa [findLoop] using hr
        subst hkk
        refine ⟨hk2, by omega, hk3, fun u huN hfu => ?_⟩
        by_contra huk
        exact hI2 u (by omega) huN hfu
  | succ fuel ih =>
    intro low high lastOk hhN hlowN hfuel hI1 hI2 hI3
    rw [findLoop]
    split
    · rename_i hlh
      have hmid_ge : low ≤ (low + high) / 2 := by omega
      have hmid_le : (low + high) / 2 ≤ high := by omega
      dsimp only
      split
      · rename_i hm0
        have hlow0 : low = 0 := by omega
        have hhigh1 : high ≤ 1 := by omega
        match lastOk with
        | some k =>
          exfalso
          obtain ⟨hk1, hk2, hk3⟩ := hI3
          omega
        | none =>
          constructor
          · intro _ u hu2 huN
            exact hI2 u (by omega) huN
          · intro k hr
            cases hr
      · rename_i hm0
        split
        · rename_i hfm
          exact ih ((low + high) / 2 + 1) high (some ((low + high) / 2))
            hhN (by omega) (by omega)
            (fun u hu1 hult => le_trans (hf u ((low + high) / 2) (by omega)) hfm)
            hI2
            ⟨rfl, by omega, hfm⟩
        · rename_i hfm
          exact ih low ((low + high) / 2 - 1) lastOk
            (by omega) hlowN (by omega)
            hI1
            (fun u hugt huN hfu =>
              hfm (le_trans (hf ((low + high) / 2) u (by omega)) hfu))
            hI3
    · rename_i hlh
      match lastOk with
      | none =>
        exfalso
        simp only at hI3
        omega
      | some k =>
        obtain ⟨hk1, hk2, hk3⟩ := hI3
        constructor
        · intro hr
          cases hr
        · intro k' hr
          have hkk : k = k' := by simpa using hr
          subst hkk
          refine ⟨hk2, by omega, hk3, fun u huN hfu => ?_⟩
          by_contra huk
          exact hI2 u (by omega) huN hfu

/-- C3 (amended): for a total margin function non-decreasing in units and a
ceiling `n ≥ 1`: (i) if the ceiling is affordable it is returned immediately;
(ii) any returned size is the *greatest* affordable size in `[1, n]`;
(iii) `none` is returned only when no size in `[2, n]` is affordable; and
(iv) whenever some size in `[2, n]` is affordable, a size is returned.
(The original claim promised the greatest affordable size unconditionally
and tied the unset result to `margin(0)`; the search never queries 0, never
returns 0, and can return unset when only `units = 1` is affordable.) -/
theorem C3_sizing_search_amended (f : ℕ → ℚ) (q : ℚ)
    (hf : ∀ a b : ℕ, a ≤ b → f a ≤ f b) (n : ℕ) (hn : 1 ≤ n) :
    (f n ≤ q → find_max_units (some (fun u => some (f u))) q (n : Int) = some n) ∧
    (∀ k, find_max_units (some (fun u => some (f u))) q (n : Int) = some k →
      1 ≤ k ∧ k ≤ n ∧ f k ≤ q ∧ ∀ u, u ≤ n → f u ≤ q → u ≤ k) ∧
    (find_max_units (some (fun u => some (f u))) q (n : Int) = none →
      ∀ u, 2 ≤ u → u ≤ n → ¬ f u ≤ q) ∧
    ((∃ u, 2 ≤ u ∧ u ≤ n ∧ f u ≤ q) →
      ∃ k, find_max_units (some (fun u => some (f u))) q (n : Int) = some k) := by
  have hn0 : ¬ ((n : Int) ≤ 0) := by
    have h1 : (0 : Int) < (n : Int) := by exact_mod_cast hn
    omega
  simp only [find_max_units, if_neg hn0, Int.toNat_natCast]
  split
  · rename_i hfn
    refine ⟨fun _ => rfl, ?_, ?_, ?_⟩
    · intro k hk
      have hkn : n = k := by simpa using hk
      subst hkn
      exact ⟨hn, le_refl n, hfn, fun u hu _ => hu⟩
    · intro h
      cases h
    · intro _
      exact ⟨n, rfl⟩
  · rename_i hfn
    have hspec := findLoop_spec f q hf n (n + 1) 0 n none (le_refl n)
      (by omega) (by omega)
      (fun u h1 h0 => absurd h0 (by omega))
      (fun u hgt hle => absurd hgt (by omega))
      rfl
    refine ⟨fun hfn' => absurd hfn' hfn, hspec.2, hspec.1, ?_⟩
    rintro ⟨u, hu2, hun, hfu⟩
    cases hr : findLoop (fun u => some (f u)) q (n + 1) 0 n none with
    | none => exact absurd hfu (hspec.1 hr u hu2 hun)
    | some k => exact ⟨k, rfl⟩

/-- The monotone margin schedule `10 · units` used for C3's scenarios. -/
def c3Margin : ℕ → Option ℚ := fun u => some ((10 : ℚ) * u)

/-- Counterexample to C3 as stated: margin `10·u` (every query succeeds,
non-decreasing — its first five values are listed increasing), equity 10,
ceiling 4.  The greatest units ≤ 4 with margin ≤ equity is 1 (margin 10 ≤ 10,
margin(2) = 20 > 10), and margin(0) = 0 ≤ equity is available, yet the
search returns unset: the binary search narrows to (low, high) = (0, 1),
hits `mid == 0` and aborts without ever probing units = 1. -/
theorem C3_counterexample :
    find_max_units (some c3Margin) 10 4 = none ∧
    c3Margin 1 = some 10 ∧ ((10 : ℚ) ≤ 10) ∧
    c3Margin 2 = some 20 ∧ ¬ ((20 : ℚ) ≤ 10) ∧
    c3Margin 0 = some 0 ∧ ((0 : ℚ) ≤ 10) ∧
    (c3Margin 0 = some 0 ∧ c3Margin 1 = some 10 ∧ c3Margin 2 = some 20 ∧
      c3Margin 3 = some 30 ∧ c3Margin 4 = some 40) ∧
    ((0 : ℚ) ≤ 10 ∧ (10 : ℚ) ≤ 20 ∧ (20 : ℚ) ≤ 30 ∧ (30 : ℚ) ≤ 40) := by
  decide

/-- Witness for the amended C3 fast path: an affordable ceiling is returned
immediately. -/
theorem C3_witness :
    find_max_units (some (fun u => some ((10 : ℚ) * u))) 1000 (10 : Int)
      = some 10 :=
  (C3_sizing_search_amended (fun u => (10 : ℚ) * u) 1000
    (fun a b hab => by
      have h : (a : ℚ) ≤ (b : ℚ) := by exact_mod_cast hab
      exact mul_le_mul_of_nonneg_left h (by norm_num))
    10 (by decide)).1 (by decide)
